import Mathlib

/-
  Verification development for the shrike SQL test runner engine
  (src/shrike/engine.py).  The Python source is shallowly embedded:
  dynamic YAML/driver values become the inductive type YVal, Python
  dicts become association lists with Python insertion semantics,
  fallible Python code returns Except String, and the database driver
  plus the dynamic evaluation of success-expression strings are oracle
  parameters of the orchestrator.  Wall-clock durations and timestamps
  are not modelled (recorded as 0 / "").
-/

namespace Shrike

/-- Dynamic values flowing through the engine: YAML metadata values and
database row values.  Numbers are modelled as integers, mapping keys as
strings (YAML test files and result-set columns use string keys). -/
inductive YVal where
  | s (v : String)
  | i (v : Int)
  | b (v : Bool)
  | null
  | list (xs : List YVal)
  | dict (xs : List (String × YVal))

/-- A result row, as produced by execute_query: a mapping from column
name to value (dict(zip(columns, row)) in the source). -/
abbrev Row := List (String × YVal)

/-- A Python dict with string keys, as an association list in insertion
order (real dicts never hold duplicate keys). -/
abbrev PyDict := List (String × YVal)

/-- Python dict lookup d.get(k): first (and only) binding of the key. -/
def assocGet {α : Type} : List (String × α) → String → Option α
  | [], _ => none
  | (k, v) :: rest, key => if k = key then some v else assocGet rest key

/-- Python dict assignment d[k] = v: overwriting keeps the original
insertion position of the key; a new key is appended at the end. -/
def assocSet {α : Type} : List (String × α) → String → α → List (String × α)
  | [], k, v => [(k, v)]
  | (k0, v0) :: rest, k, v =>
    if k0 = k then (k0, v) :: rest else (k0, v0) :: assocSet rest k v

/-- Characters matched by the regex class backslash-s on ASCII text. -/
def pyIsSpace (c : Char) : Bool :=
  c = ' ' || c = '\t' || c = '\n' || c = '\r' || c = '\x0b' || c = '\x0c'

/-- Characters matched by the regex class backslash-w on ASCII text. -/
def pyIsWord (c : Char) : Bool :=
  c.isAlpha || c.isDigit || c = '_'

/-- Python str.strip(): remove whitespace from both ends. -/
def pyStrip (s : String) : String :=
  String.mk (((s.toList.dropWhile pyIsSpace).reverse.dropWhile pyIsSpace).reverse)

mutual
/-- Python str() of a value: how values are rendered into f-strings and
SQL text by the engine (str(5) = "5", str(True) = "True", str(None) =
"None"; containers render as their repr). -/
def pyStr : YVal → String
  | .s v => v
  | .i v => toString v
  | .b true => "True"
  | .b false => "False"
  | .null => "None"
  | .list xs => "[" ++ String.intercalate ", " (pyReprList xs) ++ "]"
  | .dict xs => "\x7b" ++ String.intercalate ", " (pyReprDict xs) ++ "\x7d"

/-- repr of each element of a Python list (strings are quoted). -/
def pyReprList : List YVal → List String
  | [] => []
  | x :: xs =>
    (match x with
     | .s v => "\x27" ++ v ++ "\x27"
     | other => pyStr other) :: pyReprList xs

/-- repr of each entry of a Python dict. -/
def pyReprDict : List (String × YVal) → List String
  | [] => []
  | (k, v) :: xs =>
    ("\x27" ++ k ++ "\x27: " ++
      (match v with
       | .s w => "\x27" ++ w ++ "\x27"
       | other => pyStr other)) :: pyReprDict xs
end

/-- Python repr() of a value (strings quoted, otherwise as str()). -/
def pyRepr : YVal → String
  | .s v => "\x27" ++ v ++ "\x27"
  | other => pyStr other

/-- repr of a Python list of strings, e.g. list(row.keys()). -/
def reprStrList (xs : List String) : String :=
  "[" ++ String.intercalate ", " (xs.map fun k => "\x27" ++ k ++ "\x27") ++ "]"

/-- Python truthiness of a value. -/
def pyTruthy : YVal → Bool
  | .s v => !v.isEmpty
  | .i v => v != 0
  | .b v => v
  | .null => false
  | .list xs => !xs.isEmpty
  | .dict xs => !xs.isEmpty

mutual
/-- Python equality (==) on the embedded values: booleans compare equal
to the integers 0/1, lists compare elementwise, dicts compare by key
(order-insensitively; real dicts have no duplicate keys). -/
def pyEq : YVal → YVal → Bool
  | .i a, .i b => a == b
  | .i a, .b b => a == (if b then (1 : Int) else 0)
  | .b a, .i b => (if a then (1 : Int) else 0) == b
  | .b a, .b b => a == b
  | .s a, .s b => a == b
  | .null, .null => true
  | .list xs, .list ys => pyEqList xs ys
  | .dict xs, .dict ys => xs.length == ys.length && pyEqDictAux xs ys
  | _, _ => false

/-- Elementwise equality of Python lists. -/
def pyEqList : List YVal → List YVal → Bool
  | [], [] => true
  | x :: xs, y :: ys => pyEq x y && pyEqList xs ys
  | _, _ => false

/-- Keywise equality of Python dicts (each entry of the first must have
an equal entry in the second). -/
def pyEqDictAux : List (String × YVal) → List (String × YVal) → Bool
  | [], _ => true
  | (k, v) :: rest, ys =>
    (match assocGet ys k with
     | some w => pyEq v w
     | none => false) && pyEqDictAux rest ys
end

/-! ## Environment variable resolution (resolve_env_vars, engine.py 25-55) -/

/-- Attempt to match the tail of the ENV_VAR_RE pattern right after a
dollar sign: an opening brace, a nonempty word-character name, an
optional ":default" part (default runs to the first closing brace), and
a closing brace.  Returns (name, optional default, rest after match). -/
def envMatch : List Char → Option (String × Option String × List Char)
  | '\x7b' :: r1 =>
    let name := r1.takeWhile pyIsWord
    if name.isEmpty then none
    else
      match r1.drop name.length with
      | '\x7d' :: rest => some (String.mk name, none, rest)
      | ':' :: r3 =>
        let dflt := r3.takeWhile (· ≠ '\x7d')
        match r3.drop dflt.length with
        | '\x7d' :: rest => some (String.mk name, some (String.mk dflt), rest)
        | _ => none
      | _ => none
  | _ => none

/-- The error raised when a placeholder names an unset variable with no
default (engine.py 47-49). -/
def missingVarMsg (name : String) : String :=
  "Environment variable \x27$\x7b" ++ name ++ "\x7d\x27 is not set and no default provided"

/-- One replacement step of ENV_VAR_RE.sub: value of the environment
variable if set, else the default if one was supplied, else an error. -/
def envReplacement (env : String → Option String) (name : String)
    (dflt : Option String) : Except String String :=
  match env name with
  | some v => .ok v
  | none =>
    match dflt with
    | some d => .ok d
    | none => .error (missingVarMsg name)

/-- Left-to-right scan of ENV_VAR_RE.sub over a string: at each position
a match is attempted (the pattern can only start at a dollar sign); on a
match the replacement is spliced in without rescanning it, otherwise one
character is emitted.  Fuel is the remaining length, always sufficient
since every step consumes at least one character. -/
def envSubstAux (env : String → Option String) : Nat → List Char → Except String (List Char)
  | _, [] => .ok []
  | 0, cs => .ok cs
  | fuel + 1, c :: cs =>
    if c = '$' then
      match envMatch cs with
      | some (name, dflt, rest) => do
        let repl ← envReplacement env name dflt
        let tail ← envSubstAux env fuel rest
        .ok (repl.toList ++ tail)
      | none => (envSubstAux env fuel cs).map (c :: ·)
    else (envSubstAux env fuel cs).map (c :: ·)

/-- ENV_VAR_RE.sub(replacer, s) over a whole string. -/
def envSubst (env : String → Option String) (s : String) : Except String String :=
  (envSubstAux env s.toList.length s.toList).map String.mk

mutual
/-- resolve_env_vars: recursively resolve placeholders in strings, dict
values and list elements; other values pass through unchanged. -/
def resolve_env_vars (env : String → Option String) : YVal → Except String YVal
  | .s v => (envSubst env v).map YVal.s
  | .dict xs => (resolveDict env xs).map YVal.dict
  | .list xs => (resolveList env xs).map YVal.list
  | other => .ok other

/-- resolve_env_vars over the entries of a dict, in insertion order;
keys are left untouched. -/
def resolveDict (env : String → Option String) :
    List (String × YVal) → Except String (List (String × YVal))
  | [] => .ok []
  | (k, v) :: rest => do
    let v2 ← resolve_env_vars env v
    let rest2 ← resolveDict env rest
    .ok ((k, v2) :: rest2)

/-- resolve_env_vars over the elements of a list, in order. -/
def resolveList (env : String → Option String) :
    List YVal → Except String (List YVal)
  | [] => .ok []
  | v :: rest => do
    let v2 ← resolve_env_vars env v
    let rest2 ← resolveList env rest
    .ok (v2 :: rest2)
end

/-! ## Test file parsing (parse_test_file, engine.py 155-219) -/

/-- Strip a leading byte-order mark, as read_text(encoding="utf-8-sig")
does. -/
def stripBOM (s : String) : String :=
  match s.toList with
  | '\uFEFF' :: rest => String.mk rest
  | _ => s

/-- Indices of newline characters in a list. -/
def nlIndices (cs : List Char) : List Nat :=
  (List.range cs.length).filter fun j => cs.get? j = some '\n'

/-- Split a whitespace run at its last newline: returns the characters
after the last newline, or none when the run holds no newline.  Models
the greedy backslash-s-star followed by a newline in FRONTMATTER_RE. -/
def afterLastNl (ws : List Char) : Option (List Char) :=
  let rev := ws.reverse
  let trail := rev.takeWhile (· ≠ '\n')
  match rev.drop trail.length with
  | '\n' :: _ => some trail.reverse
  | _ => none

/-- Scan for the closing delimiter of FRONTMATTER_RE: the earliest
position holding a newline, three dashes and a whitespace run that
contains a newline (consumed through its last newline, greedily).
Returns (metadata block characters, body characters). -/
def findClose : List Char → Option (List Char × List Char)
  | [] => none
  | c :: cs =>
    (if c = '\n' then
      match cs with
      | '-' :: '-' :: '-' :: r2 =>
        let ws := r2.takeWhile pyIsSpace
        match afterLastNl ws with
        | some leftover => some ([], leftover ++ r2.drop ws.length)
        | none => none
      | _ => none
    else none).orElse fun _ =>
      (findClose cs).map fun (g, b) => (c :: g, b)

/-- First successful element of a list of options. -/
def firstSome {α : Type} (l : List (Option α)) : Option α :=
  (l.filterMap id).head?

/-- FRONTMATTER_RE.match(text): three leading dashes, a whitespace run
consumed through one of its newlines (greedy, so the last newline is
preferred, earlier ones tried on backtracking), a lazily matched block,
and a closing line of three dashes.  Returns (metadata block, body). -/
def frontmatterMatch (text : String) : Option (String × String) :=
  match text.toList with
  | '-' :: '-' :: '-' :: rest =>
    let ws := rest.takeWhile pyIsSpace
    let tailPart := rest.drop ws.length
    firstSome ((nlIndices ws).reverse.map fun j =>
      (findClose (ws.drop (j + 1) ++ tailPart)).map fun (g, b) =>
        (String.mk g, String.mk b))
  | _ => none

/-- Model of the backslash-s-star (.+) dollar tail of the step marker
regex: greedy whitespace, then a nonempty run of non-newline characters
captured up to the end of the line, backtracking into the whitespace
run when it reaches the end of a line.  Returns (capture, rest). -/
def tailCapture (cs : List Char) : Option (String × List Char) :=
  let w := cs.takeWhile pyIsSpace
  let r := cs.drop w.length
  match r with
  | _ :: _ =>
    let g := r.takeWhile (· ≠ '\n')
    some (String.mk g, r.drop g.length)
  | [] =>
    let rev := w.reverse
    let nls := rev.takeWhile (· = '\n')
    match rev.drop nls.length with
    | c :: _ => some (String.mk [c], nls.reverse)
    | [] => none

/-- Attempt to match the step marker regex (MULTILINE, IGNORECASE
"dash dash dash whitespace step whitespace colon whitespace capture")
at a line start.  Returns (captured raw name, rest after the match). -/
def stepMarkerMatch (cs : List Char) : Option (String × List Char) :=
  match cs with
  | '-' :: '-' :: '-' :: r1 =>
    match r1.dropWhile pyIsSpace with
    | a :: b :: c :: d :: r3 =>
      if a.toLower = 's' && b.toLower = 't' && c.toLower = 'e' && d.toLower = 'p' then
        match r3.dropWhile pyIsSpace with
        | ':' :: r5 => tailCapture r5
        | _ => none
      else none
    | _ => none
  | _ => none

/-- re.split of the step marker regex over the body: returns the segment
before the first match and the list of (captured name, following
segment) pairs.  The boolean tracks whether the scan position is at a
line start.  Fuel is the remaining length (each step consumes at least
one character). -/
def stepSplitAux : Nat → List Char → Bool → List Char × List (String × List Char)
  | _, [], _ => ([], [])
  | 0, cs, _ => (cs, [])
  | fuel + 1, c :: cs, atLS =>
    match (if atLS then stepMarkerMatch (c :: cs) else none) with
    | some (g, rest) =>
      let (seg, pairs) := stepSplitAux fuel rest false
      ([], (g, seg) :: pairs)
    | none =>
      let (seg, pairs) := stepSplitAux fuel cs (c = '\n')
      (c :: seg, pairs)

/-- The (stripped step name, stripped SQL text) pairs of a body, in
marker order (engine.py 202-211). -/
def stepPairs (body : String) : List (String × String) :=
  let cs := body.toList
  ((stepSplitAux cs.length cs true).2).map fun (g, seg) =>
    (pyStrip g, pyStrip (String.mk seg))

/-- Python dict item assignment on a value: a TypeError unless the value
is a dict. -/
def pyDictSet (v : YVal) (k : String) (w : YVal) : Except String YVal :=
  match v with
  | .dict d => .ok (.dict (assocSet d k w))
  | _ => .error "TypeError: object does not support item assignment"

/-- parse_test_file, with the YAML loader as an oracle parameter (YAML
semantics are not modelled; yaml.safe_load errors surface as the
loader returning an error).  The file path stands in for the Path
argument; the text is the file content. -/
def parse_test_file (yamlLoad : String → Except String YVal)
    (env : String → Option String) (filepath : String) (raw : String) :
    Except String YVal :=
  let text := stripBOM raw
  match frontmatterMatch text with
  | none => .error ("No YAML frontmatter found in " ++ filepath)
  | some (fm, body) =>
    match yamlLoad fm with
    | .error e => .error e
    | .ok meta0 =>
      let ps := stepPairs body
      let step1 :=
        if ps.isEmpty then pyDictSet meta0 "_sql" (.s (pyStrip body))
        else pyDictSet meta0 "_sql_steps"
          (.dict (ps.foldl (fun d p => assocSet d p.1 (YVal.s p.2)) []))
      match step1 with
      | .error e => .error e
      | .ok meta1 =>
        match pyDictSet meta1 "_filepath" (.s filepath) with
        | .error e => .error e
        | .ok meta2 =>
          match resolve_env_vars env meta2 with
          | .error e => .error e
          | .ok meta3 => pyDictSet meta3 "_filepath" (.s filepath)

/-! ## Step template rendering (render_sql, engine.py 226-244) -/

/-- The body of the replacer closure in render_sql: look up the named
step, require at least one collected row, fetch the column from the
first row with rows[0].get(column) — which yields None both when the
column is absent and when its stored value is None — and render the
value (quoted when textual, str() otherwise). -/
def renderPlaceholder (stepResults : List (String × List Row))
    (stepName column : String) : Except String String :=
  match assocGet stepResults stepName with
  | none => .error ("Step \x27" ++ stepName ++ "\x27 has no results to reference")
  | some [] => .error ("Step \x27" ++ stepName ++ "\x27 has no results to reference")
  | some (row0 :: _) =>
    match assocGet row0 column with
    | none => .error ("Column \x27" ++ column ++ "\x27 not found in step \x27" ++ stepName ++ "\x27")
    | some .null => .error ("Column \x27" ++ column ++ "\x27 not found in step \x27" ++ stepName ++ "\x27")
    | some (.s v) => .ok ("\x27" ++ v ++ "\x27")
    | some v => .ok (pyStr v)

/-- Attempt to match the placeholder regex (two opening braces, the
word step, a dot, a word-character step name, a dot, a word-character
column name, two closing braces) at the current position. -/
def placeholderMatch : List Char → Option (String × String × List Char)
  | '\x7b' :: '\x7b' :: 's' :: 't' :: 'e' :: 'p' :: '.' :: r1 =>
    let sn := r1.takeWhile pyIsWord
    if sn.isEmpty then none
    else
      match r1.drop sn.length with
      | '.' :: r2 =>
        let col := r2.takeWhile pyIsWord
        if col.isEmpty then none
        else
          match r2.drop col.length with
          | '\x7d' :: '\x7d' :: rest => some (String.mk sn, String.mk col, rest)
          | _ => none
      | _ => none
  | _ => none

/-- Left-to-right re.sub scan for render_sql; replacements are spliced
in without rescanning.  Fuel is the remaining length. -/
def renderAux (sr : List (String × List Row)) : Nat → List Char → Except String (List Char)
  | _, [] => .ok []
  | 0, cs => .ok cs
  | fuel + 1, c :: cs =>
    match placeholderMatch (c :: cs) with
    | some (sn, col, rest) => do
      let repl ← renderPlaceholder sr sn col
      let tail ← renderAux sr fuel rest
      .ok (repl.toList ++ tail)
    | none => (renderAux sr fuel cs).map (c :: ·)

/-- render_sql: replace step placeholders in a SQL template with values
from prior step results. -/
def render_sql (sqlTemplate : String) (stepResults : List (String × List Row)) :
    Except String String :=
  (renderAux stepResults sqlTemplate.toList.length sqlTemplate.toList).map String.mk

/-! ## Data models (engine.py 62-83) -/

/-- StepResult.  duration_ms is not modelled (always 0). -/
structure StepResult where
  step_name : String
  server : String
  database : String
  sql : String
  rows : List Row
  columns : List String
  duration_ms : Nat := 0
  error : Option String := none

/-- TestResult.  tags keeps the dynamic value stored by run_test;
duration_ms and timestamp are not modelled. -/
structure TestResult where
  test_name : String
  file_path : String
  passed : Bool
  message : String
  steps : List StepResult := []
  duration_ms : Nat := 0
  timestamp : String := ""
  tags : YVal := .list []

/-! ## Connection management (ConnectionManager, engine.py 90-148) -/

/-- The connection manager: the shared named-connection table and the
cache keyed by canonical connection string.  Live pyodbc connections
are modelled as allocation identifiers; nextId is the next fresh one.
pyodbc.connect is modelled as allocating a fresh identifier (the
success case; a connect failure would leave the cache unchanged). -/
structure ConnMgr where
  shared : PyDict
  cache : List (String × Nat)
  nextId : Nat

/-- Python dict indexing d[k]: KeyError (whose str() is the quoted key)
when the key is absent. -/
def pyIndexE (d : PyDict) (k : String) : Except String YVal :=
  match assocGet d k with
  | some v => .ok v
  | none => .error ("\x27" ++ k ++ "\x27")

/-- ConnectionManager._build_connection_string.  Non-dict descriptors
fail as Python would on attribute access; field order and f-string
rendering follow the source (str() of each value, so a None credential
renders as the text None). -/
def build_connection_string (info : YVal) : Except String String :=
  match info with
  | .dict d => do
    let driver := (assocGet d "driver").getD (.s "ODBC Driver 18 for SQL Server")
    let server ← pyIndexE d "server"
    let database := (assocGet d "database").getD (.s "master")
    let trusted := (assocGet d "trusted_connection").getD (.b false)
    let base := ["DRIVER=\x7b" ++ pyStr driver ++ "\x7d",
                 "SERVER=" ++ pyStr server,
                 "DATABASE=" ++ pyStr database]
    let withAuth ←
      if pyTruthy trusted then pure (base ++ ["Trusted_Connection=yes"])
      else do
        let u ← pyIndexE d "username"
        let p ← pyIndexE d "password"
        pure (base ++ ["UID=" ++ pyStr u, "PWD=" ++ pyStr p])
    let withCert :=
      if pyTruthy ((assocGet d "trust_server_certificate").getD (.b true)) then
        withAuth ++ ["TrustServerCertificate=yes"]
      else withAuth
    match (assocGet d "odbc_extras").getD (.dict []) with
    | .dict ex => .ok (String.intercalate ";" (withCert ++ ex.map fun kv => kv.1 ++ "=" ++ pyStr kv.2))
    | _ => .error "AttributeError: object has no attribute \x27items\x27"
  | _ => .error "AttributeError: object has no attribute \x27get\x27"

/-- ConnectionManager.get_connection: build the canonical connection
string, return the cached connection for it when present, otherwise
open (allocate) a fresh one and cache it. -/
def get_connection (m : ConnMgr) (info : YVal) : Except String (ConnMgr × Nat) := do
  let cs ← build_connection_string info
  match assocGet m.cache cs with
  | some h => .ok (m, h)
  | none => .ok ({ m with cache := m.cache ++ [(cs, m.nextId)], nextId := m.nextId + 1 }, m.nextId)

/-- ConnectionManager.resolve: a string is looked up in the shared
table (error listing the known names when absent); anything else is
returned unchanged. -/
def mgrResolve (m : ConnMgr) (ref : YVal) : Except String YVal :=
  match ref with
  | .s name =>
    match assocGet m.shared name with
    | some v => .ok v
    | none => .error ("Connection \x27" ++ name ++ "\x27 not found in shared connections. Available: "
        ++ reprStrList (m.shared.map Prod.fst))
  | other => .ok other

/-- _resolve_connection (engine.py 442-454): a named or inline
connection.  The inline form fills every field, defaulting a missing
username or password to None rather than failing. -/
def resolveConnection (meta : PyDict) (m : ConnMgr) : Except String YVal :=
  match assocGet meta "connection" with
  | some c => mgrResolve m c
  | none => do
    let server ← pyIndexE meta "server"
    .ok (.dict
      [("server", server),
       ("database", (assocGet meta "database").getD (.s "master")),
       ("username", (assocGet meta "username").getD .null),
       ("password", (assocGet meta "password").getD .null),
       ("trusted_connection", (assocGet meta "trusted_connection").getD (.b false)),
       ("driver", (assocGet meta "driver").getD (.s "ODBC Driver 18 for SQL Server")),
       ("trust_server_certificate", (assocGet meta "trust_server_certificate").getD (.b true))])

/-! ## Simple test evaluation (evaluate_simple_test, engine.py 268-287) -/

/-- Membership and lookup of the success column in a row.  Row keys are
strings; a non-string configured column is never present (unhashable
configured values, which would raise in Python, are not modelled). -/
def rowLookup (r : Row) (col : YVal) : Option YVal :=
  match col with
  | .s c => assocGet r c
  | _ => none

/-- The row loop of evaluate_simple_test: returns the collected failure
details, or the immediate missing-column message. -/
def checkRows (col expectVal : YVal) : List Row → Nat → List String → Except String (List String)
  | [], _, acc => .ok acc
  | r :: rest, i, acc =>
    match rowLookup r col with
    | none => .error ("Column \x27" ++ pyStr col ++ "\x27 not found in results. Columns: "
        ++ reprStrList (r.map Prod.fst))
    | some v =>
      if pyEq v expectVal then checkRows col expectVal rest (i + 1) acc
      else checkRows col expectVal rest (i + 1)
        (acc ++ ["Row " ++ toString i ++ ": " ++ pyStr col ++ "=" ++ pyStr v])

/-- evaluate_simple_test: the column/value comparison rule. -/
def evaluate_simple_test (meta : PyDict) (rows : List Row) : Bool × String :=
  let successCol := (assocGet meta "success_column").getD (.s "success")
  let expectVal := (assocGet meta "success_value").getD (.i 0)
  match rows with
  | [] =>
    if pyTruthy ((assocGet meta "allow_empty").getD (.b false)) then
      (true, "Query returned no rows (allowed)")
    else (false, "Query returned no rows")
  | _ =>
    match checkRows successCol expectVal rows 0 [] with
    | .error msg => (false, msg)
    | .ok [] => (true, "All " ++ toString rows.length ++ " row(s) passed")
    | .ok failures =>
      (false, toString failures.length ++ " row(s) failed: "
        ++ String.intercalate "; " (failures.take 5))

/-! ## Expression evaluation (evaluate_expression, engine.py 290-307)

The source evaluates the success-expression string with Python eval,
passing globals dressed as an empty __builtins__ dict and locals that
hold the step-result mapping plus len, abs, sum, min and max.  Python
eval first parses the text into an expression AST and then evaluates
that AST; parsing is not modelled here, so the embedded evaluator takes
the parsed AST alongside its source text.  CPython name resolution in
eval consults locals, then globals, then the (empty) builtins mapping;
attribute access is evaluated by getattr and is not restricted by the
emptied builtins — in particular every object carries the attribute
__class__.  Only the node types and attributes needed by the claims are
modelled; CPython exposes strictly more (methods, dunder attributes),
none of which raise. -/

/-- The Python expression AST subset evaluated by eval. -/
inductive PyExpr where
  | name (n : String)
  | lit (v : YVal)
  | attr (e : PyExpr) (a : String)
  | sub (e : PyExpr) (k : PyExpr)
  | eqCmp (a b : PyExpr)
  | callLen (e : PyExpr)

/-- Runtime values during expression evaluation: plain data values, the
allow-listed builtin functions, and class objects reached through the
attribute __class__. -/
inductive PyVal where
  | data (v : YVal)
  | builtin (n : String)
  | cls (n : String)

/-- The Python type name of a data value. -/
def typeName : YVal → String
  | .s _ => "str"
  | .i _ => "int"
  | .b _ => "bool"
  | .null => "NoneType"
  | .list _ => "list"
  | .dict _ => "dict"

/-- The names bound in the locals mapping handed to eval. -/
def evalBuiltins : List String := ["len", "abs", "sum", "min", "max"]

/-- CPython evaluation of the embedded AST under the environment built
by evaluate_expression: locals bind steps and the five builtins, the
globals dict is empty apart from the emptied __builtins__, so any other
name raises NameError; attribute access reaches __class__ on every
value; subscripts index dicts and lists. -/
def evalPy (stepsY : YVal) : PyExpr → Except String PyVal
  | .name n =>
    if n = "steps" then .ok (.data stepsY)
    else if evalBuiltins.contains n then .ok (.builtin n)
    else .error ("name \x27" ++ n ++ "\x27 is not defined")
  | .lit v => .ok (.data v)
  | .attr e a =>
    match evalPy stepsY e with
    | .error err => .error err
    | .ok (.data w) =>
      if a = "__class__" then .ok (.cls (typeName w))
      else .error ("\x27" ++ typeName w ++ "\x27 object has no attribute \x27" ++ a ++ "\x27")
    | .ok (.cls _) =>
      if a = "__class__" then .ok (.cls "type")
      else .error ("type object has no attribute \x27" ++ a ++ "\x27")
    | .ok (.builtin _) =>
      if a = "__class__" then .ok (.cls "builtin_function_or_method")
      else .error ("builtin has no attribute \x27" ++ a ++ "\x27")
  | .sub e k =>
    match evalPy stepsY e with
    | .error err => .error err
    | .ok ve =>
      match evalPy stepsY k with
      | .error err => .error err
      | .ok vk =>
        match ve, vk with
        | .data (.dict d), .data (.s key) =>
          match assocGet d key with
          | some v => .ok (.data v)
          | none => .error ("\x27" ++ key ++ "\x27")
        | .data (.list xs), .data (.i idx) =>
          if h : 0 ≤ idx ∧ idx.toNat < xs.length then .ok (.data (xs.get ⟨idx.toNat, h.2⟩))
          else .error "list index out of range"
        | _, _ => .error "TypeError: object is not subscriptable"
  | .eqCmp a b =>
    match evalPy stepsY a with
    | .error err => .error err
    | .ok va =>
      match evalPy stepsY b with
      | .error err => .error err
      | .ok vb =>
        match va, vb with
        | .data x, .data y => .ok (.data (.b (pyEq x y)))
        | .cls x, .cls y => .ok (.data (.b (x = y)))
        | .builtin x, .builtin y => .ok (.data (.b (x = y)))
        | _, _ => .ok (.data (.b false))
  | .callLen e =>
    match evalPy stepsY e with
    | .error err => .error err
    | .ok (.data (.list xs)) => .ok (.data (.i xs.length))
    | .ok (.data (.dict d)) => .ok (.data (.i d.length))
    | .ok (.data (.s v)) => .ok (.data (.i v.length))
    | .ok _ => .error "TypeError: object has no len()"

/-- Python truthiness of a runtime value (functions and classes are
truthy). -/
def pyTruthyV : PyVal → Bool
  | .data v => pyTruthy v
  | _ => true

/-- The steps mapping handed to eval as a Python object: a dict from
step name to list of row dicts. -/
def stepsToY (steps : List (String × List Row)) : YVal :=
  .dict (steps.map fun kr => (kr.1, .list (kr.2.map YVal.dict)))

/-- evaluate_expression: evaluate the expression, report pass on a
truthy result, a diagnostic with each referenced step\x27s first row on
a falsy result, and catch every evaluation exception as a failing
expression error. -/
def evaluate_expression (exprText : String) (expr : PyExpr)
    (steps : List (String × List Row)) : Bool × String :=
  match evalPy (stepsToY steps) expr with
  | .ok v =>
    if pyTruthyV v then (true, "Expression passed: " ++ exprText)
    else
      let details := steps.filterMap fun kr =>
        match kr.2 with
        | [] => none
        | r :: _ => some (kr.1 ++ ": " ++ pyStr (.dict r))
      (false, "Expression failed: " ++ exprText ++ " | Values: "
        ++ String.intercalate "; " details)
  | .error e => (false, "Expression error: " ++ e)

/-! ## Test orchestration (run_test and helpers, engine.py 314-439) -/

/-- The effects the orchestrator performs through external systems: the
database driver executing SQL on a connection handle (execute_query,
errors as strings), and the dynamic evaluation of success-expression
strings (whose semantics on a parsed AST is evaluate_expression
above). -/
structure Oracle where
  exec : Nat → String → Except String (List Row × List String)
  evalExpr : String → List (String × List Row) → Bool × String

/-- A TypeError when a value that must be a string is not. -/
def expectStr (v : YVal) : Except String String :=
  match v with
  | .s v => .ok v
  | _ => .error "TypeError: expected a string"

/-- A TypeError when a value that must be a list is not. -/
def expectList (v : YVal) : Except String (List YVal) :=
  match v with
  | .list xs => .ok xs
  | _ => .error "TypeError: expected a list"

/-- An AttributeError when a value used with .get is not a dict. -/
def expectDict (v : YVal) : Except String (List (String × YVal)) :=
  match v with
  | .dict d => .ok d
  | _ => .error "AttributeError: object has no attribute \x27get\x27"

/-- The server or database field displayed on a StepResult:
conn_info.get(field, "?") rendered as text. -/
def infoField (info : YVal) (k : String) : String :=
  match info with
  | .dict d => pyStr ((assocGet d k).getD (.s "?"))
  | _ => "?"

/-- Python Path(p).stem: the final path component without its suffix
(a dot at position zero or at the very end does not start a suffix). -/
def pathStem (p : String) : String :=
  let nameCs := (p.toList.reverse.takeWhile (· ≠ '/')).reverse
  let n := nameCs.length
  match nameCs.reverse.findIdx? (· = '.') with
  | some j =>
    let i := n - 1 - j
    if 0 < i ∧ i < n - 1 then String.mk (nameCs.take i) else String.mk nameCs
  | none => String.mk nameCs

/-- State threaded through the step loop of _run_multistep. -/
structure StepLoopState where
  mgr : ConnMgr
  result : TestResult
  collected : List (String × List Row)
  stopped : Bool

/-- Truthiness of the error field: the loop stops only when the error
string is non-None and nonempty (if error: in the source). -/
def errTruthy : Option String → Bool
  | some e => !e.isEmpty
  | none => false

/-- The step loop of _run_multistep (engine.py 383-428): resolve the
connection for each step, render its SQL against the collected results,
execute it, record a StepResult, and stop after the first step whose
execution error is truthy. -/
def runSteps (oracle : Oracle) (meta : PyDict) (ccfg : YVal)
    (sqlSteps : List (String × YVal)) :
    List YVal → StepLoopState → Except String StepLoopState
  | [], st => .ok st
  | sd :: rest, st => do
    let d ← expectDict sd
    let nameV ← pyIndexE d "name"
    let connInfo ←
      match assocGet d "connection" with
      | some cv =>
        if pyTruthy cv then
          match ccfg with
          | .dict cd =>
            match cv with
            | .s cn =>
              match assocGet cd cn with
              | some ci => pure ci
              | none => mgrResolve st.mgr cv
            | _ => mgrResolve st.mgr cv
          | _ => .error "TypeError: argument is not a container"
        else resolveConnection meta st.mgr
      | none => resolveConnection meta st.mgr
    let (mgr1, conn) ← get_connection st.mgr connInfo
    let tmplV := match nameV with
      | .s n => (assocGet sqlSteps n).getD (.s "")
      | _ => .s ""
    if pyTruthy tmplV then do
      let tmpl ← expectStr tmplV
      let stepName := pyStr nameV
      let sql ← render_sql tmpl st.collected
      let (rows, columns, err) :=
        match oracle.exec conn sql with
        | .ok rc => (rc.1, rc.2, (none : Option String))
        | .error e => ([], [], some e)
      let stepRes : StepResult :=
        { step_name := stepName, server := infoField connInfo "server",
          database := infoField connInfo "database", sql := sql,
          rows := rows, columns := columns, error := err }
      let result1 := { st.result with steps := st.result.steps ++ [stepRes] }
      let collected1 := assocSet st.collected stepName rows
      if errTruthy err then
        let failMsg := "Step \x27" ++ stepName ++ "\x27 failed: " ++ err.getD ""
        let result2 := { result1 with passed := false, message := failMsg }
        .ok { mgr := mgr1, result := result2, collected := collected1, stopped := true }
      else
        runSteps oracle meta ccfg sqlSteps rest
          { mgr := mgr1, result := result1, collected := collected1, stopped := false }
    else
      .error ("No SQL body found for step \x27" ++ pyStr nameV ++ "\x27")

/-- The verdict block after the step loop (engine.py 430-435): the
success-expression when present and truthy, otherwise the column/value
rule applied to the collected rows of the last configured step. -/
def multistepVerdict (oracle : Oracle) (meta : PyDict) (stepsCfg : List YVal)
    (collected : List (String × List Row)) (result : TestResult) :
    Except String TestResult :=
  let fallback : Except String TestResult :=
    match stepsCfg.getLast? with
    | none => .error "IndexError: list index out of range"
    | some sd =>
      match expectDict sd with
      | .error e => .error e
      | .ok d =>
        match pyIndexE d "name" with
        | .error e => .error e
        | .ok lastName =>
          let rows := match lastName with
            | .s n => (assocGet collected n).getD []
            | _ => []
          let pm := evaluate_simple_test meta rows
          .ok { result with passed := pm.1, message := pm.2 }
  match assocGet meta "success_expression" with
  | some ev =>
    if pyTruthy ev then
      match expectStr ev with
      | .error e => .error e
      | .ok es =>
        let pm := oracle.evalExpr es collected
        .ok { result with passed := pm.1, message := pm.2 }
    else fallback
  | none => fallback

/-- _run_multistep (engine.py 376-439). -/
def runMultistep (oracle : Oracle) (meta : PyDict) (mgr : ConnMgr)
    (result : TestResult) : Except String (TestResult × ConnMgr) := do
  let ccfg := (assocGet meta "connections").getD (.dict [])
  let stepsCfg ← expectList ((assocGet meta "steps").getD (.list []))
  let sqlSteps ← expectDict (← pyIndexE meta "_sql_steps")
  let st ← runSteps oracle meta ccfg sqlSteps stepsCfg
    { mgr := mgr, result := result, collected := [], stopped := false }
  if st.stopped then .ok (st.result, st.mgr)
  else do
    let r ← multistepVerdict oracle meta stepsCfg st.collected st.result
    .ok (r, st.mgr)

/-- _run_simple (engine.py 347-373): resolve the single connection,
execute the query (errors are not caught here), record the pseudo-step,
then decide by success-expression (membership test, not truthiness) or
the column/value rule. -/
def runSimple (oracle : Oracle) (meta : PyDict) (mgr : ConnMgr)
    (result : TestResult) : Except String (TestResult × ConnMgr) := do
  let connInfo ← resolveConnection meta mgr
  let (mgr1, conn) ← get_connection mgr connInfo
  let sql ← expectStr (← pyIndexE meta "_sql")
  let rc ← oracle.exec conn sql
  let stepRes : StepResult :=
    { step_name := "query", server := infoField connInfo "server",
      database := infoField connInfo "database", sql := sql,
      rows := rc.1, columns := rc.2, error := none }
  let result1 := { result with steps := result.steps ++ [stepRes] }
  match assocGet meta "success_expression" with
  | some ev => do
    let es ← expectStr ev
    let pm := oracle.evalExpr es [("query", rc.1)]
    .ok ({ result1 with passed := pm.1, message := pm.2 }, mgr1)
  | none =>
    let pm := evaluate_simple_test meta rc.1
    .ok ({ result1 with passed := pm.1, message := pm.2 }, mgr1)

/-- The TestResult built before the try block of run_test: test name
(metadata or file stem), tags (a comma-separated string is split and
stripped, anything else kept as stored), empty message, failed. -/
def initialResult (meta : PyDict) (fp : String) : TestResult :=
  { test_name :=
      match assocGet meta "test_name" with
      | some v => pyStr v
      | none => pathStem fp,
    file_path := fp, passed := false, message := "",
    tags :=
      match assocGet meta "tags" with
      | some (.s t) => .list (((t.splitOn ",").map fun x => YVal.s (pyStrip x)))
      | some v => v
      | none => .list [] }

/-- The body inside the try block of run_test: multi-step when the
parsed definition carries _sql_steps, simple otherwise. -/
def runTestBody (oracle : Oracle) (meta : PyDict) (mgr : ConnMgr)
    (base : TestResult) : Except String (TestResult × ConnMgr) :=
  if (assocGet meta "_sql_steps").isSome then runMultistep oracle meta mgr base
  else runSimple oracle meta mgr base

/-- run_test (engine.py 314-344): build the initial result, run the
body, and catch any orchestration exception into a failed result whose
message is the exception text prefixed by "Unhandled error: ".  The
lookups before the try block (the definition file path) are the only
way run_test itself can raise. -/
def run_test (oracle : Oracle) (meta : PyDict) (mgr : ConnMgr) :
    Except String (TestResult × ConnMgr) :=
  match pyIndexE meta "_filepath" with
  | .error e => .error e
  | .ok fpV =>
    match expectStr fpV with
    | .error e => .error e
    | .ok fp =>
      let base := initialResult meta fp
      match runTestBody oracle meta mgr base with
      | .ok rm => .ok rm
      | .error e => .ok ({ base with passed := false, message := "Unhandled error: " ++ e }, mgr)

/-! ## Concrete fixtures used by the theorems -/

/-- A database oracle whose statement SB fails with the message boom
and whose other statements return one row with success = 0. -/
def oracleBoom : Oracle :=
  ⟨fun _ sql => if sql = "SB" then .error "boom" else .ok ([[("success", .i 0)]], ["success"]),
   fun _ _ => (false, "")⟩

/-- A database oracle whose statement SB fails with an exception whose
text is empty, and whose other statements return one row with
success = 0. -/
def oracleEmptyErr : Oracle :=
  ⟨fun _ sql => if sql = "SB" then .error "" else .ok ([[("success", .i 0)]], ["success"]),
   fun _ _ => (false, "")⟩

/-- A parsed three-step test definition over an inline connection: steps
a, b, c with SQL bodies SA, SB, SC. -/
def metaABC : PyDict :=
  [("_filepath", .s "d/t.sql"), ("server", .s "srv"),
   ("steps", .list [.dict [("name", .s "a")], .dict [("name", .s "b")], .dict [("name", .s "c")]]),
   ("_sql_steps", .dict [("a", .s "SA"), ("b", .s "SB"), ("c", .s "SC")])]

/-- A fresh connection manager with no shared connections. -/
def freshMgr : ConnMgr := ⟨[], [], 0⟩

/-! ## C1 — expression sandbox -/

/-- C1: the claim that attribute access is unreachable from a success
expression and fails closed with an ExpressionError is false on the
code.  eval with an emptied __builtins__ dict does not restrict
attribute access: the expression steps.__class__ evaluates successfully
(to the dict class object, which is truthy), so evaluate_expression
reports the expression as passed instead of failing closed.  This is
the entry point of the well-known sandbox escape through
__class__/__bases__/__subclasses__, so arbitrary code is reachable. -/
theorem c1_attribute_access_executes :
    evaluate_expression "steps.__class__" (.attr (.name "steps") "__class__")
      [("a", [[("cnt", .i 10)]])]
      = (true, "Expression passed: steps.__class__") := rfl

/-! ## C3 — multi-step fail-fast -/

/-- C3 counterexample: with steps [a, b, c] where the execution of b
raises an exception whose text is empty, the source tests the error
string for truthiness (if error:), so execution does not stop: the
result holds three StepResults — b with its error field set to the
empty string — step c runs, and the test even passes by the column
rule on the last step.  The claim as stated (two StepResults, c never
executed, test failed) is therefore false for this input. -/
theorem c3_empty_error_text_continues :
    Except.map
      (fun rm => ((rm.1.steps.map fun s => (s.step_name, s.error)), rm.1.passed))
      (run_test oracleEmptyErr metaABC freshMgr)
      = .ok ([("a", none), ("b", some ""), ("c", none)], true) := rfl

/-- The inline connection descriptor _resolve_connection builds from a
definition whose server field holds sv. -/
def inlineInfo (meta : PyDict) (sv : YVal) : YVal :=
  .dict
    [("server", sv),
     ("database", (assocGet meta "database").getD (.s "master")),
     ("username", (assocGet meta "username").getD .null),
     ("password", (assocGet meta "password").getD .null),
     ("trusted_connection", (assocGet meta "trusted_connection").getD (.b false)),
     ("driver", (assocGet meta "driver").getD (.s "ODBC Driver 18 for SQL Server")),
     ("trust_server_certificate", (assocGet meta "trust_server_certificate").getD (.b true))]

theorem resolveConnection_inline (meta : PyDict) (m : ConnMgr) (sv : YVal)
    (hc : assocGet meta "connection" = none) (hs : assocGet meta "server" = some sv) :
    resolveConnection meta m = .ok (inlineInfo meta sv) := by
  simp [resolveConnection, hc, hs, pyIndexE, inlineInfo, bind, Except.bind]

/-- Building a connection string from an inline descriptor always
succeeds: every field the builder indexes is present on it. -/
theorem build_inline_ok (meta : PyDict) (sv : YVal) :
    ∃ cs, build_connection_string (inlineInfo meta sv) = .ok cs := by
  unfold build_connection_string inlineInfo
  simp only [assocGet, String.reduceEq, reduceIte, Option.getD_some, pyIndexE, bind,
    Except.bind, pure, Except.pure]
  split <;> exact ⟨_, rfl⟩

/-- When the connection string builds, get_connection succeeds (either
from the cache or by opening a fresh connection). -/
theorem get_connection_ok (m : ConnMgr) (info : YVal) (cs : String)
    (h : build_connection_string info = .ok cs) :
    ∃ m2 hd, get_connection m info = .ok (m2, hd) := by
  unfold get_connection
  simp only [h, bind, Except.bind]
  cases assocGet m.cache cs <;> exact ⟨_, _, rfl⟩

/-- C3 (amended): in multi-step mode, when a step execution raises an
error whose text is nonempty (the source checks the error string for
truthiness, so an exception with empty text does not stop the run),
the orchestrator records that step with its error set, marks the test
failed with a message naming the step and the error, and executes no
remaining steps: for steps [a, b, c] where b fails, exactly the two
StepResults for a and b are appended and none for c. -/
theorem multistep_fail_fast (oracle : Oracle) (meta : PyDict) (mgr : ConnMgr)
    (base : TestResult) (na nb nc sa sb sc : String) (sv : YVal)
    (rowsA : List Row) (colsA : List String) (e : String)
    (hsteps : assocGet meta "steps" = some (.list
      [.dict [("name", .s na)], .dict [("name", .s nb)], .dict [("name", .s nc)]]))
    (hsqlsteps : assocGet meta "_sql_steps" = some (.dict [(na, .s sa), (nb, .s sb), (nc, .s sc)]))
    (hconn : assocGet meta "connection" = none)
    (hserver : assocGet meta "server" = some sv)
    (hab : na ≠ nb)
    (hsa : pyTruthy (.s sa) = true) (hsb : pyTruthy (.s sb) = true)
    (hrendA : render_sql sa [] = .ok sa)
    (hrendB : render_sql sb [(na, rowsA)] = .ok sb)
    (hexecA : ∀ h, oracle.exec h sa = .ok (rowsA, colsA))
    (hexecB : ∀ h, oracle.exec h sb = .error e)
    (he : errTruthy (some e) = true) :
    ∃ r mgr2, runMultistep oracle meta mgr base = .ok (r, mgr2) ∧
      r.steps.map (fun s => (s.step_name, s.error))
        = base.steps.map (fun s => (s.step_name, s.error)) ++ [(na, none), (nb, some e)] ∧
      r.passed = false ∧
      r.message = "Step \x27" ++ nb ++ "\x27 failed: " ++ e := by
  obtain ⟨cs, hcs⟩ := build_inline_ok meta sv
  have hres : ∀ m : ConnMgr, resolveConnection meta m = .ok (inlineInfo meta sv) :=
    fun m => resolveConnection_inline meta m sv hconn hserver
  obtain ⟨m1, hd1, hg1⟩ := get_connection_ok mgr (inlineInfo meta sv) cs hcs
  obtain ⟨m2, hd2, hg2⟩ := get_connection_ok m1 (inlineInfo meta sv) cs hcs
  have he2 : (!e.isEmpty) = true := by simpa [errTruthy] using he
  simp only [runMultistep, runSteps, multistepVerdict, hsteps, hsqlsteps, hres,
    hg1, hg2, hab, hsa, hsb, hrendA, hrendB, hexecA, hexecB, he2, expectList, expectDict,
    expectStr, pyIndexE, assocGet, assocSet, pyStr, errTruthy, String.reduceEq, reduceIte,
    Bool.false_eq_true, Option.getD_some, Option.getD_none, Option.isSome,
    bind, Except.bind, pure, Except.pure]
  refine ⟨_, _, rfl, ?_, rfl, rfl⟩
  simp

/-- Witness for C3 at a concrete three-step definition whose second
step fails with the message boom. -/
theorem multistep_fail_fast_witness :
    ∃ r mgr2, runMultistep oracleBoom metaABC freshMgr (initialResult metaABC "d/t.sql")
        = .ok (r, mgr2) ∧
      r.steps.map (fun s => (s.step_name, s.error)) = [("a", none), ("b", some "boom")] ∧
      r.passed = false ∧ r.message = "Step \x27b\x27 failed: boom" := by
  have h := multistep_fail_fast oracleBoom metaABC freshMgr (initialResult metaABC "d/t.sql")
    "a" "b" "c" "SA" "SB" "SC" (.s "srv") [[("success", .i 0)]] ["success"] "boom"
    rfl rfl rfl rfl (by decide) rfl rfl rfl rfl (fun _ => rfl) (fun _ => rfl) rfl
  simpa using h

/-! ## C2 — run_test never raises -/

/-- C2: for every test definition produced by the parser (which always
carries the file path under _filepath), every connection registry and
every behavior of the database and expression oracles, run_test returns
a TestResult instead of raising; when the orchestration body fails with
any exception, the result is failed and its message contains the
exception text (prefixed by "Unhandled error: "). -/
theorem run_test_catches (oracle : Oracle) (meta : PyDict) (mgr : ConnMgr) (fp : String)
    (hfp : assocGet meta "_filepath" = some (.s fp)) :
    ∃ r mgr2, run_test oracle meta mgr = .ok (r, mgr2) ∧
      ∀ e, runTestBody oracle meta mgr (initialResult meta fp) = .error e →
        r.passed = false ∧ ∃ pre, r.message = pre ++ e := by
  unfold run_test
  simp only [pyIndexE, hfp, expectStr]
  cases hb : runTestBody oracle meta mgr (initialResult meta fp) with
  | ok rm =>
    exact ⟨rm.1, rm.2, by simp, fun e he => by simp at he⟩
  | error e =>
    refine ⟨_, mgr, rfl, fun e2 he2 => ?_⟩
    obtain rfl : e = e2 := by simpa using he2
    exact ⟨rfl, "Unhandled error: ", rfl⟩

/-- Witness for C2 at a definition whose orchestration raises (no
server field), with a database oracle that always fails. -/
theorem run_test_catches_witness :
    ∃ r mgr2, run_test oracleBoom [("_filepath", .s "t.sql")] freshMgr = .ok (r, mgr2) ∧
      ∀ e, runTestBody oracleBoom [("_filepath", .s "t.sql")] freshMgr
          (initialResult [("_filepath", .s "t.sql")] "t.sql") = .error e →
        r.passed = false ∧ ∃ pre, r.message = pre ++ e :=
  run_test_catches oracleBoom [("_filepath", .s "t.sql")] freshMgr "t.sql" rfl

/-! ## C4 — column/value comparison rule -/

/-- The failing-row details collected by the row loop of
evaluate_simple_test when every row carries the success column
(mirrors the loop accumulator of engine.py 278-283). -/
def mkDetails (col expectVal : YVal) : List Row → Nat → List String
  | [], _ => []
  | r :: rest, i =>
    match rowLookup r col with
    | some v =>
      if pyEq v expectVal then mkDetails col expectVal rest (i + 1)
      else ("Row " ++ toString i ++ ": " ++ pyStr col ++ "=" ++ pyStr v)
        :: mkDetails col expectVal rest (i + 1)
    | none => []

/-- When every row carries the success column, the row loop returns
the accumulated failing-row details. -/
theorem checkRows_ok (col v : YVal) (rows : List Row)
    (h : ∀ r ∈ rows, (rowLookup r col).isSome) :
    ∀ i acc, checkRows col v rows i acc = .ok (acc ++ mkDetails col v rows i) := by
  induction rows with
  | nil => intro i acc; simp [checkRows, mkDetails]
  | cons r rest ih =>
    intro i acc
    obtain ⟨w, hw⟩ := Option.isSome_iff_exists.mp (h r (by simp))
    have hrest : ∀ r2 ∈ rest, (rowLookup r2 col).isSome := fun r2 hr2 => h r2 (by simp [hr2])
    cases hpe : pyEq w v <;>
      simp [checkRows, mkDetails, hw, hpe, ih hrest]

/-- The row loop stops at the first row that lacks the success column
and reports it, whatever rows follow. -/
theorem checkRows_missing (col v : YVal) (r : Row) (hr : rowLookup r col = none) :
    ∀ pre, (∀ r2 ∈ pre, (rowLookup r2 col).isSome) → ∀ post i acc,
      checkRows col v (pre ++ r :: post) i acc
        = .error ("Column \x27" ++ pyStr col ++ "\x27 not found in results. Columns: "
          ++ reprStrList (r.map Prod.fst)) := by
  intro pre
  induction pre with
  | nil => intro _ post i acc; simp [checkRows, hr]
  | cons p pre ih =>
    intro hpre post i acc
    obtain ⟨w, hw⟩ := Option.isSome_iff_exists.mp (hpre p (by simp))
    have hrest : ∀ r2 ∈ pre, (rowLookup r2 col).isSome := fun r2 hr2 => hpre r2 (by simp [hr2])
    cases hpe : pyEq w v <;>
      simp [checkRows, hw, hpe, ih hrest post]

/-- The details list is nonempty exactly when some row holds a value
differing from the configured success value. -/
theorem mkDetails_ne_nil_iff (col v : YVal) (rows : List Row)
    (h : ∀ r ∈ rows, (rowLookup r col).isSome) :
    ∀ i, mkDetails col v rows i ≠ [] ↔
      ∃ r ∈ rows, ∃ w, rowLookup r col = some w ∧ pyEq w v = false := by
  induction rows with
  | nil => intro i; simp [mkDetails]
  | cons r rest ih =>
    intro i
    obtain ⟨w, hw⟩ := Option.isSome_iff_exists.mp (h r (by simp))
    have hrest : ∀ r2 ∈ rest, (rowLookup r2 col).isSome := fun r2 hr2 => h r2 (by simp [hr2])
    cases hpe : pyEq w v <;>
      simp [mkDetails, hw, hpe, ih hrest (i + 1)]

/-- C4: the column/value comparison rule, with the success column
defaulting to "success" and the success value to 0: an empty result set
passes iff allow_empty is truthy; a row lacking the column fails
immediately with the missing-column message, whatever rows follow; with
the column everywhere present the test fails iff some row differs from
the success value, reporting the failure count with detail capped to
the first 5, and passes with the row count otherwise; and in multi-step
mode without a success expression the rule is applied to the collected
rows of the last configured step only. -/
theorem column_value_rule (meta : PyDict) (col v : YVal)
    (hcol : (assocGet meta "success_column").getD (.s "success") = col)
    (hval : (assocGet meta "success_value").getD (.i 0) = v) :
    (evaluate_simple_test meta []
      = (pyTruthy ((assocGet meta "allow_empty").getD (.b false)),
         if pyTruthy ((assocGet meta "allow_empty").getD (.b false)) then
           "Query returned no rows (allowed)" else "Query returned no rows")) ∧
    (∀ pre r post, (∀ r2 ∈ pre, (rowLookup r2 col).isSome) → rowLookup r col = none →
      evaluate_simple_test meta (pre ++ r :: post)
        = (false, "Column \x27" ++ pyStr col ++ "\x27 not found in results. Columns: "
            ++ reprStrList (r.map Prod.fst))) ∧
    (∀ rows, rows ≠ [] → (∀ r ∈ rows, (rowLookup r col).isSome) →
      evaluate_simple_test meta rows =
        (if mkDetails col v rows 0 = [] then
          (true, "All " ++ toString rows.length ++ " row(s) passed")
        else
          (false, toString (mkDetails col v rows 0).length ++ " row(s) failed: "
            ++ String.intercalate "; " ((mkDetails col v rows 0).take 5)))) ∧
    (∀ rows, (∀ r ∈ rows, (rowLookup r col).isSome) → ∀ i,
      (mkDetails col v rows i ≠ [] ↔
        ∃ r ∈ rows, ∃ w, rowLookup r col = some w ∧ pyEq w v = false)) ∧
    (∀ oracle stepsCfg pre d lastName collected result,
      assocGet meta "success_expression" = none →
      stepsCfg = pre ++ [YVal.dict d] →
      assocGet d "name" = some (.s lastName) →
      multistepVerdict oracle meta stepsCfg collected result =
        .ok { result with
          passed := (evaluate_simple_test meta ((assocGet collected lastName).getD [])).1,
          message := (evaluate_simple_test meta ((assocGet collected lastName).getD [])).2 }) := by
  refine ⟨?_, ?_, ?_, ?_, ?_⟩
  · cases hae : pyTruthy ((assocGet meta "allow_empty").getD (.b false)) <;>
      simp [evaluate_simple_test, hae]
  · intro pre r post hpre hr
    have hc := checkRows_missing col v r hr pre hpre post 0 []
    cases pre with
    | nil =>
      simp only [List.nil_append] at hc ⊢
      simp [evaluate_simple_test, hcol, hval, hc]
    | cons p pre2 =>
      simp only [List.cons_append] at hc ⊢
      simp [evaluate_simple_test, hcol, hval, hc]
  · intro rows hne hall
    have hc := checkRows_ok col v rows hall 0 []
    cases rows with
    | nil => exact absurd rfl hne
    | cons a l =>
      cases hmk : mkDetails col v (a :: l) 0 <;>
        simp [evaluate_simple_test, hcol, hval, hc, hmk]
  · intro rows hall i
    exact mkDetails_ne_nil_iff col v rows hall i
  · intro oracle stepsCfg pre d lastName collected result hexpr hcfg hname
    subst hcfg
    simp [multistepVerdict, hexpr, hname, pyIndexE, expectDict, List.getLast?_concat]

/-- Witness for C4 on the specification test vectors. -/
theorem column_value_rule_witness :
    evaluate_simple_test [] [[("success", .i 0)], [("success", .i 0)]] = (true, "All 2 row(s) passed") ∧
    evaluate_simple_test [] [[("success", .i 1)]] = (false, "1 row(s) failed: Row 0: success=1") ∧
    evaluate_simple_test [] [] = (false, "Query returned no rows") ∧
    evaluate_simple_test [("allow_empty", .b true)] [] = (true, "Query returned no rows (allowed)") ∧
    evaluate_simple_test [] [[("success", .i 0)], [("other", .i 0)]]
      = (false, "Column \x27success\x27 not found in results. Columns: [\x27other\x27]") := by
  have h := column_value_rule [] (.s "success") (.i 0) rfl rfl
  have h2 := column_value_rule [("allow_empty", YVal.b true)] (.s "success") (.i 0) rfl rfl
  refine ⟨?_, ?_, ?_, ?_, ?_⟩
  · exact (h.2.2.1 [[("success", .i 0)], [("success", .i 0)]] (by simp) (by decide)).trans rfl
  · exact (h.2.2.1 [[("success", .i 1)]] (by simp) (by decide)).trans rfl
  · exact h.1.trans rfl
  · exact h2.1.trans rfl
  · exact (h.2.1 [[("success", .i 0)]] [("other", .i 0)] [] (by decide) rfl).trans rfl

/-! ## C5 — step template rendering -/

/-- C5 counterexample: a placeholder whose column is present in the
first row but holds a null value does not render the null literal
form — the replacer fetches the value with rows[0].get(column), cannot
distinguish a stored None from a missing column, and raises the
UnknownColumn error even though the column is present.  The claim that
rendering fails with UnknownColumn exactly when the column is absent
from the first row is therefore false at this input. -/
theorem c5_null_value_counterexample :
    (assocGet ([("col", YVal.null)] : Row) "col").isSome = true ∧
    render_sql "\x7b\x7bstep.a.col\x7d\x7d" [("a", [[("col", YVal.null)]])]
      = .error "Column \x27col\x27 not found in step \x27a\x27" := ⟨rfl, rfl⟩

/-- C5 (amended): for a placeholder naming step sn and column col: the
rendering fails with the UnresolvedStepReference error exactly when the
step has no collected rows (absent or empty); it fails with the
UnknownColumn error when the column is absent from the first row or its
value is null; a textual value renders quoted; any other value renders
as its textual (str) form.  The specification examples rendering 5 and
quoting x hold as stated. -/
theorem render_placeholder_spec (stepResults : List (String × List Row)) (sn col : String) :
    ((assocGet stepResults sn = none ∨ assocGet stepResults sn = some []) →
      renderPlaceholder stepResults sn col
        = .error ("Step \x27" ++ sn ++ "\x27 has no results to reference")) ∧
    (∀ row0 rest, assocGet stepResults sn = some (row0 :: rest) →
      ((assocGet row0 col = none ∨ assocGet row0 col = some .null) →
        renderPlaceholder stepResults sn col
          = .error ("Column \x27" ++ col ++ "\x27 not found in step \x27" ++ sn ++ "\x27")) ∧
      (∀ s, assocGet row0 col = some (.s s) →
        renderPlaceholder stepResults sn col = .ok ("\x27" ++ s ++ "\x27")) ∧
      (∀ w, assocGet row0 col = some w → w ≠ .null → (∀ s, w ≠ .s s) →
        renderPlaceholder stepResults sn col = .ok (pyStr w))) ∧
    render_sql "\x7b\x7bstep.a.col\x7d\x7d" [("a", [[("col", .i 5)]])] = .ok "5" ∧
    render_sql "\x7b\x7bstep.a.col\x7d\x7d" [("a", [[("col", .s "x")]])] = .ok "\x27x\x27" := by
  refine ⟨?_, ?_, rfl, rfl⟩
  · rintro (h | h) <;> simp [renderPlaceholder, h]
  · intro row0 rest hrow
    refine ⟨?_, ?_, ?_⟩
    · rintro (h | h) <;> simp [renderPlaceholder, hrow, h]
    · intro s h; simp [renderPlaceholder, hrow, h]
    · intro w hw hnull hstr
      cases w with
      | s v => exact absurd rfl (hstr v)
      | null => exact absurd rfl hnull
      | i v => simp [renderPlaceholder, hrow, hw]
      | b v => simp [renderPlaceholder, hrow, hw]
      | list xs => simp [renderPlaceholder, hrow, hw]
      | dict xs => simp [renderPlaceholder, hrow, hw]

/-- Witness for C5 at concrete steps: a numeric value renders as its
literal text, an empty step fails with the no-results error. -/
theorem render_placeholder_spec_witness :
    renderPlaceholder [("a", [[("col", YVal.i 5)]])] "a" "col" = .ok "5" ∧
    renderPlaceholder [("a", [])] "a" "col"
      = .error "Step \x27a\x27 has no results to reference" := by
  have h := render_placeholder_spec [("a", [[("col", YVal.i 5)]])] "a" "col"
  have h2 := render_placeholder_spec [("a", [])] "a" "col"
  refine ⟨?_, ?_⟩
  · exact ((h.2.1 [("col", YVal.i 5)] [] rfl).2.2 (.i 5) rfl
      (fun hn => YVal.noConfusion hn) (fun _ hs => YVal.noConfusion hs)).trans rfl
  · exact h2.1 (Or.inr rfl)

/-! ## C6 — connection string authentication -/

/-- C6 counterexample: an inline definition with a server but no
username or password does not fail at connection-build time — the
resolver fills the missing credentials with null values, and the
builder renders them as the literal text None, silently producing
UID=None;PWD=None.  The claim that the absence of either credential is
a definition error surfaced at connection-build time, rather than being
silently defaulted, is therefore false for inline definitions. -/
theorem c6_inline_missing_credentials :
    assocGet [("server", YVal.s "s")] "username" = none ∧
    assocGet [("server", YVal.s "s")] "password" = none ∧
    (resolveConnection [("server", YVal.s "s")] freshMgr).bind build_connection_string
      = .ok "DRIVER=\x7bODBC Driver 18 for SQL Server\x7d;SERVER=s;DATABASE=master;UID=None;PWD=None;TrustServerCertificate=yes" :=
  ⟨rfl, rfl, rfl⟩

/-- C6 (amended): when building a connection string from a descriptor:
a truthy trusted flag omits the credential parts and sets
Trusted_Connection=yes; with the flag falsy the username and password
keys are required on the descriptor and a missing key raises a KeyError
at build time; but credential values are not validated — a descriptor
carrying explicit values (such as the nulls an inline definition
substitutes for missing credentials) builds without error, rendering
each value as text. -/
theorem build_connection_string_auth (d : PyDict) (sv : YVal)
    (hs : assocGet d "server" = some sv)
    (hx : assocGet d "odbc_extras" = none) :
    (pyTruthy ((assocGet d "trusted_connection").getD (.b false)) = true →
      build_connection_string (.dict d) = .ok (String.intercalate ";"
        ((["DRIVER=\x7b" ++ pyStr ((assocGet d "driver").getD (.s "ODBC Driver 18 for SQL Server")) ++ "\x7d",
           "SERVER=" ++ pyStr sv,
           "DATABASE=" ++ pyStr ((assocGet d "database").getD (.s "master"))]
          ++ ["Trusted_Connection=yes"])
         ++ (if pyTruthy ((assocGet d "trust_server_certificate").getD (.b true)) then
              ["TrustServerCertificate=yes"] else [])))) ∧
    (pyTruthy ((assocGet d "trusted_connection").getD (.b false)) = false →
      (assocGet d "username" = none → build_connection_string (.dict d) = .error "\x27username\x27") ∧
      (∀ u, assocGet d "username" = some u → assocGet d "password" = none →
        build_connection_string (.dict d) = .error "\x27password\x27") ∧
      (∀ u p, assocGet d "username" = some u → assocGet d "password" = some p →
        build_connection_string (.dict d) = .ok (String.intercalate ";"
          ((["DRIVER=\x7b" ++ pyStr ((assocGet d "driver").getD (.s "ODBC Driver 18 for SQL Server")) ++ "\x7d",
             "SERVER=" ++ pyStr sv,
             "DATABASE=" ++ pyStr ((assocGet d "database").getD (.s "master"))]
            ++ ["UID=" ++ pyStr u, "PWD=" ++ pyStr p])
           ++ (if pyTruthy ((assocGet d "trust_server_certificate").getD (.b true)) then
                ["TrustServerCertificate=yes"] else []))))) := by
  constructor
  · intro htr
    simp only [build_connection_string, hs, hx, htr, pyIndexE, reduceIte,
      Option.getD_none, bind, Except.bind, pure, Except.pure]
    cases pyTruthy ((assocGet d "trust_server_certificate").getD (.b true)) <;> simp
  · intro htr
    refine ⟨?_, ?_, ?_⟩
    · intro hu
      simp only [build_connection_string, hs, hx, htr, hu, pyIndexE, reduceIte,
        Bool.false_eq_true, Option.getD_none, bind, Except.bind, pure, Except.pure]
      rfl
    · intro u hu hp
      simp only [build_connection_string, hs, hx, htr, hu, hp, pyIndexE, reduceIte,
        Bool.false_eq_true, Option.getD_none, bind, Except.bind, pure, Except.pure]
      rfl
    · intro u p hu hp
      simp only [build_connection_string, hs, hx, htr, hu, hp, pyIndexE, reduceIte,
        Bool.false_eq_true, Option.getD_none, bind, Except.bind, pure, Except.pure]
      cases pyTruthy ((assocGet d "trust_server_certificate").getD (.b true)) <;> simp

/-- Witness for C6: a trusted descriptor builds without credentials; an
untrusted descriptor lacking the username key fails with the KeyError
text at build time. -/
theorem build_connection_string_auth_witness :
    build_connection_string (.dict [("server", YVal.s "s"), ("trusted_connection", YVal.b true)])
      = .ok "DRIVER=\x7bODBC Driver 18 for SQL Server\x7d;SERVER=s;DATABASE=master;Trusted_Connection=yes;TrustServerCertificate=yes" ∧
    build_connection_string (.dict [("server", YVal.s "s")]) = .error "\x27username\x27" := by
  have h := build_connection_string_auth
    [("server", YVal.s "s"), ("trusted_connection", YVal.b true)] (.s "s") rfl rfl
  have h2 := build_connection_string_auth [("server", YVal.s "s")] (.s "s") rfl rfl
  exact ⟨(h.1 rfl).trans rfl, (h2.2 rfl).1 rfl⟩

/-! ## C7 — connection cache -/

/-- A key absent from an association list is a failed lookup. -/
theorem assocGet_eq_none_iff {α : Type} (l : List (String × α)) (k : String) :
    assocGet l k = none ↔ k ∉ l.map Prod.fst := by
  induction l with
  | nil => simp [assocGet]
  | cons p rest ih =>
    rcases p with ⟨k0, v0⟩
    by_cases h : k0 = k
    · subst h; simp [assocGet]
    · simp [assocGet, h, ih, Ne.symm h]

/-- A successful lookup is a member of the list. -/
theorem assocGet_mem {α : Type} {l : List (String × α)} {k : String} {v : α}
    (h : assocGet l k = some v) : (k, v) ∈ l := by
  induction l with
  | nil => simp [assocGet] at h
  | cons p rest ih =>
    by_cases hp : p.1 = k
    · simp [assocGet, hp] at h
      subst h; subst hp
      simp
    · simp [assocGet, hp] at h
      simp [ih h]

/-- A lookup that succeeds on the left part of an append is unchanged
by the appended tail. -/
theorem assocGet_append_left {α : Type} {l : List (String × α)} {k : String} {v : α}
    (h : assocGet l k = some v) (tail : List (String × α)) :
    assocGet (l ++ tail) k = some v := by
  induction l with
  | nil => simp [assocGet] at h
  | cons p rest ih =>
    by_cases hp : p.1 = k <;> simp [assocGet, hp] at h ⊢
    · exact h
    · exact ih h

/-- A lookup that fails on the left part of an append falls through to
the tail. -/
theorem assocGet_append_right {α : Type} {l : List (String × α)} {k : String}
    (h : assocGet l k = none) (tail : List (String × α)) :
    assocGet (l ++ tail) k = assocGet tail k := by
  induction l with
  | nil => simp
  | cons p rest ih =>
    by_cases hp : p.1 = k <;> simp [assocGet, hp] at h ⊢
    exact ih h

/-- In a cache whose handles are pairwise distinct, entries under
different keys hold different handles. -/
theorem nodup_snd_ne {l : List (String × Nat)} (hn : (l.map Prod.snd).Nodup)
    {k1 k2 : String} {v1 v2 : Nat}
    (h1 : (k1, v1) ∈ l) (h2 : (k2, v2) ∈ l) (hk : k1 ≠ k2) : v1 ≠ v2 := by
  intro hv
  subst hv
  have heq := List.inj_on_of_nodup_map hn h1 h2 rfl
  exact hk (congrArg Prod.fst heq)

/-- Well-formedness of a connection manager over the lifetime of a run:
at most one cache entry per connection string, pairwise distinct live
handles, and every cached handle allocated below nextId.  It holds for
the empty manager a run starts with and is preserved by
get_connection. -/
def MgrWF (m : ConnMgr) : Prop :=
  (m.cache.map Prod.fst).Nodup ∧ (m.cache.map Prod.snd).Nodup ∧ ∀ p ∈ m.cache, p.2 < m.nextId

/-- get_connection in equational form: a cache hit returns the manager
unchanged with the cached handle; a miss opens a fresh handle and
appends it. -/
theorem get_connection_eq (m : ConnMgr) (d : YVal) (s : String)
    (hb : build_connection_string d = .ok s) :
    get_connection m d = (match assocGet m.cache s with
      | some h => .ok (m, h)
      | none => .ok ({ m with cache := m.cache ++ [(s, m.nextId)], nextId := m.nextId + 1 },
          m.nextId)) := by
  unfold get_connection
  simp [hb, bind, Except.bind]

/-- Opening a fresh connection under a new string preserves
well-formedness. -/
theorem MgrWF_insert (m : ConnMgr) (hwf : MgrWF m) (s : String)
    (hs : assocGet m.cache s = none) :
    MgrWF ⟨m.shared, m.cache ++ [(s, m.nextId)], m.nextId + 1⟩ := by
  obtain ⟨hk, hv, hb⟩ := hwf
  refine ⟨?_, ?_, ?_⟩
  · simp [List.nodup_append, hk]
    intro x hmem
    exact (assocGet_eq_none_iff m.cache s).mp hs
      (List.mem_map.mpr ⟨(s, x), hmem, rfl⟩)
  · simp [List.nodup_append, hv]
    intro k hmem
    exact absurd rfl (Nat.ne_of_lt (hb (k, m.nextId) hmem)).symm
  · intro p hp
    simp at hp
    rcases hp with hp | hp
    · exact Nat.lt_succ_of_lt (hb p hp)
    · simp [hp]

/-- C7: the registry keeps at most one live connection per distinct
canonical connection string (well-formedness is preserved across
requests); requesting twice with descriptors that build the same
string returns the identical cached handle with no second open (the
manager state is unchanged); descriptors that build different strings
occupy separate cache entries with distinct handles. -/
theorem connection_cache_reuse (m : ConnMgr) (hwf : MgrWF m) (d1 d2 : YVal) (s1 s2 : String)
    (hb1 : build_connection_string d1 = .ok s1)
    (hb2 : build_connection_string d2 = .ok s2)
    (m1 : ConnMgr) (h1 : Nat) (hg1 : get_connection m d1 = .ok (m1, h1))
    (m2 : ConnMgr) (h2 : Nat) (hg2 : get_connection m1 d2 = .ok (m2, h2)) :
    MgrWF m2 ∧
    (s1 = s2 → h2 = h1 ∧ m2 = m1) ∧
    (s1 ≠ s2 → assocGet m2.cache s1 = some h1 ∧ assocGet m2.cache s2 = some h2 ∧ h1 ≠ h2) := by
  rw [get_connection_eq m d1 s1 hb1] at hg1
  cases hc1 : assocGet m.cache s1 <;> rw [hc1] at hg1 <;> simp at hg1 <;>
    obtain ⟨hm1, hh1⟩ := hg1
  case some h0 =>
    subst hm1
    subst hh1
    rw [get_connection_eq m d2 s2 hb2] at hg2
    cases hc2 : assocGet m.cache s2 <;> rw [hc2] at hg2 <;> simp at hg2 <;>
      obtain ⟨hm2, hh2⟩ := hg2
    case some h0b =>
      subst hm2
      subst hh2
      refine ⟨hwf, fun hss => ?_, fun hss => ?_⟩
      · subst hss
        rw [hc1] at hc2
        exact ⟨(Option.some.injEq _ _ ▸ hc2 : h0 = h0b) ▸ rfl, rfl⟩
      · exact ⟨hc1, hc2, nodup_snd_ne hwf.2.1 (assocGet_mem hc1) (assocGet_mem hc2) hss⟩
    case none =>
      subst hm2
      subst hh2
      refine ⟨MgrWF_insert m hwf s2 hc2, fun hss => ?_, fun hss => ?_⟩
      · subst hss
        rw [hc1] at hc2
        cases hc2
      · refine ⟨assocGet_append_left hc1 _, ?_, ?_⟩
        · rw [assocGet_append_right hc2]
          simp [assocGet]
        · exact Nat.ne_of_lt (hwf.2.2 (s1, h0) (assocGet_mem hc1))
  case none =>
    subst hh1
    have hw1 : MgrWF m1 := hm1 ▸ MgrWF_insert m hwf s1 hc1
    have hcache1 : m1.cache = m.cache ++ [(s1, m.nextId)] := by rw [← hm1]
    have hnext1 : m1.nextId = m.nextId + 1 := by rw [← hm1]
    have hlook1 : assocGet m1.cache s1 = some m.nextId := by
      rw [hcache1, assocGet_append_right hc1]
      simp [assocGet]
    rw [get_connection_eq m1 d2 s2 hb2] at hg2
    by_cases hss : s1 = s2
    · subst hss
      rw [hlook1] at hg2
      simp at hg2
      obtain ⟨hm2, hh2⟩ := hg2
      subst hm2
      subst hh2
      exact ⟨hw1, fun _ => ⟨rfl, rfl⟩, fun hne => absurd rfl hne⟩
    · cases hc2 : assocGet m.cache s2 with
      | some h0b =>
        have hlook2 : assocGet m1.cache s2 = some h0b := by
          rw [hcache1]
          exact assocGet_append_left hc2 _
        rw [hlook2] at hg2
        simp at hg2
        obtain ⟨hm2, hh2⟩ := hg2
        subst hm2
        subst hh2
        refine ⟨hw1, fun h => absurd h hss, fun _ => ⟨hlook1, hlook2, ?_⟩⟩
        exact (Nat.ne_of_lt (hwf.2.2 (s2, h0b) (assocGet_mem hc2))).symm
      | none =>
        have hlook2 : assocGet m1.cache s2 = none := by
          rw [hcache1, assocGet_append_right hc2]
          simp [assocGet, hss]
        rw [hlook2] at hg2
        simp at hg2
        obtain ⟨hm2, hh2⟩ := hg2
        subst hh2
        refine ⟨hm2 ▸ MgrWF_insert m1 hw1 s2 hlook2, fun h => absurd h hss,
          fun _ => ⟨?_, ?_, ?_⟩⟩
        · rw [← hm2]
          exact assocGet_append_left hlook1 _
        · rw [← hm2]
          rw [assocGet_append_right hlook2]
          simp [assocGet]
        · rw [hnext1]
          exact Nat.ne_of_lt (Nat.lt_succ_self _)

/-- A trusted inline descriptor and a second one differing only in the
database field. -/
def connDescA : YVal := .dict [("server", .s "s"), ("trusted_connection", .b true)]

/-- The companion descriptor whose canonical string differs. -/
def connDescB : YVal :=
  .dict [("server", .s "s"), ("database", .s "other"), ("trusted_connection", .b true)]

/-- The canonical connection string of connDescA. -/
def csA : String :=
  "DRIVER=\x7bODBC Driver 18 for SQL Server\x7d;SERVER=s;DATABASE=master;Trusted_Connection=yes;TrustServerCertificate=yes"

/-- The canonical connection string of connDescB. -/
def csB : String :=
  "DRIVER=\x7bODBC Driver 18 for SQL Server\x7d;SERVER=s;DATABASE=other;Trusted_Connection=yes;TrustServerCertificate=yes"

/-- The manager after opening connDescA once. -/
def mgrOne : ConnMgr := ⟨[], [(csA, 0)], 1⟩

/-- The manager after additionally opening connDescB. -/
def mgrTwo : ConnMgr := ⟨[], [(csA, 0), (csB, 1)], 2⟩

/-- Witness for C7: repeating connDescA returns the identical cached
handle without a second open, while connDescB lands in its own cache
entry with a distinct handle. -/
theorem connection_cache_reuse_witness :
    get_connection mgrOne connDescA = .ok (mgrOne, 0) ∧
    assocGet mgrTwo.cache csA = some 0 ∧ assocGet mgrTwo.cache csB = some 1 ∧ (0 : Nat) ≠ 1 := by
  have hwf : MgrWF freshMgr := ⟨List.nodup_nil, List.nodup_nil, by simp [freshMgr]⟩
  have h := connection_cache_reuse freshMgr hwf connDescA connDescB csA csB rfl rfl
    mgrOne 0 rfl mgrTwo 1 rfl
  exact ⟨rfl, h.2.2 (by decide)⟩

/-- Lookup after assignment at the same key. -/
theorem assocGet_set_same {α : Type} (d : List (String × α)) (k : String) (v : α) :
    assocGet (assocSet d k v) k = some v := by
  induction d with
  | nil => simp [assocSet, assocGet]
  | cons p rest ih =>
    by_cases h : p.1 = k <;> simp [assocSet, assocGet, h, ih]

/-- Assignment leaves other keys untouched. -/
theorem assocGet_set_other {α : Type} (d : List (String × α)) (k k2 : String) (v : α)
    (h : k2 ≠ k) : assocGet (assocSet d k v) k2 = assocGet d k2 := by
  have hne : ¬ k = k2 := fun hh => h hh.symm
  induction d with
  | nil => simp [assocSet, assocGet, hne]
  | cons p rest ih =>
    by_cases hp : p.1 = k
    · have hp2 : ¬ p.1 = k2 := by rw [hp]; exact hne
      simp [assocSet, assocGet, hp, hp2, hne]
    · by_cases hp2 : p.1 = k2 <;> simp [assocSet, assocGet, hp, hp2, ih, h]

/-- Assignment keeps the key order, appending only new keys. -/
theorem assocSet_keys {α : Type} (d : List (String × α)) (k : String) (v : α) :
    (assocSet d k v).map Prod.fst =
      if k ∈ d.map Prod.fst then d.map Prod.fst else d.map Prod.fst ++ [k] := by
  induction d with
  | nil => simp [assocSet]
  | cons p rest ih =>
    by_cases h : p.1 = k
    · subst h; simp [assocSet]
    · by_cases hm : k ∈ rest.map Prod.fst <;>
        simp [assocSet, assocGet, h, Ne.symm h, ih, hm]

/-! ## C8 — step splitting and the ordered mapping -/

/-- First-occurrence deduplication of a list of names. -/
def dedupKeepFirst : List String → List String
  | [] => []
  | x :: xs => x :: dedupKeepFirst (xs.filter (· ≠ x))
termination_by l => l.length
decreasing_by
  exact Nat.lt_succ_of_le (List.length_filter_le _ _)

/-- Equation of dedupKeepFirst on the empty list. -/
theorem dedupKeepFirst_nil : dedupKeepFirst [] = [] := by
  rw [dedupKeepFirst.eq_def]

/-- Equation of dedupKeepFirst on a cons. -/
theorem dedupKeepFirst_cons (x : String) (xs : List String) :
    dedupKeepFirst (x :: xs) = x :: dedupKeepFirst (xs.filter (· ≠ x)) := by
  rw [dedupKeepFirst.eq_def]

/-- The loop of engine.py 208-211 building sql_by_step: Python dict
assignments folded over the (name, sql) pairs. -/
def stepFold (ps : List (String × String)) (d : List (String × YVal)) : List (String × YVal) :=
  ps.foldl (fun acc p => assocSet acc p.1 (YVal.s p.2)) d

/-- The keys of the built mapping are the step names in
first-occurrence order (new keys append, repeats overwrite in
place). -/
theorem stepFold_keys (ps : List (String × String)) :
    ∀ d, (stepFold ps d).map Prod.fst =
      d.map Prod.fst ++ dedupKeepFirst ((ps.map Prod.fst).filter (· ∉ d.map Prod.fst)) := by
  induction ps with
  | nil => intro d; simp [stepFold, dedupKeepFirst_nil]
  | cons p ps ih =>
    intro d
    have hstep : stepFold (p :: ps) d = stepFold ps (assocSet d p.1 (YVal.s p.2)) := rfl
    rw [hstep, ih, assocSet_keys]
    by_cases hm : p.1 ∈ d.map Prod.fst
    · simp only [hm, if_pos, List.filter_cons]
      simp [hm]
    · rw [if_neg hm]
      have hinner : ∀ l : List String,
          l.filter (· ∉ d.map Prod.fst ++ [p.1])
            = (l.filter (· ∉ d.map Prod.fst)).filter (· ≠ p.1) := by
        intro l
        rw [List.filter_filter]
        apply List.filter_congr
        intro a _
        by_cases h1 : a ∈ d.map Prod.fst <;> by_cases h2 : a = p.1 <;> simp [h1, h2]
      have hhead : List.filter (· ∉ List.map Prod.fst d) (List.map Prod.fst (p :: ps))
          = p.1 :: List.filter (· ∉ List.map Prod.fst d) (List.map Prod.fst ps) := by
        simp [List.filter_cons, hm]
      rw [hhead, dedupKeepFirst_cons, hinner]
      simp

/-- The value under each key is the last body assigned to that name
(the first match in the reversed pair list). -/
theorem stepFold_get (ps : List (String × String)) (k : String) :
    ∀ d, assocGet (stepFold ps d) k =
      ((ps.reverse.find? (fun p => p.1 == k)).map (fun p => YVal.s p.2)).orElse
        (fun _ => assocGet d k) := by
  induction ps with
  | nil => intro d; simp [stepFold, Option.orElse]
  | cons p ps ih =>
    intro d
    have hstep : stepFold (p :: ps) d = stepFold ps (assocSet d p.1 (YVal.s p.2)) := rfl
    rw [hstep, ih, List.reverse_cons, List.find?_append]
    cases hf : ps.reverse.find? (fun p => p.1 == k) with
    | some q => simp [Option.orElse]
    | none =>
      simp only [Option.orElse, Option.none_orElse]
      by_cases hpk : p.1 = k
      · subst hpk
        simp [List.find?, assocGet_set_same, Option.orElse]
      · have hbk : (p.1 == k) = false := beq_false_of_ne hpk
        simp [List.find?, hbk, assocGet_set_other d p.1 k _ (Ne.symm hpk), Option.orElse]

/-- The variable resolver preserves dict keys and their order. -/
theorem resolveDict_keys (env : String → Option String) :
    ∀ xs ys, resolveDict env xs = .ok ys → ys.map Prod.fst = xs.map Prod.fst := by
  intro xs
  induction xs with
  | nil =>
    intro ys h
    simp only [resolveDict] at h
    cases h
    rfl
  | cons p rest ih =>
    intro ys h
    simp only [resolveDict, bind, Except.bind] at h
    cases hv : resolve_env_vars env p.2 <;> rw [hv] at h
    · cases h
    · cases hr : resolveDict env rest <;> rw [hr] at h
      · cases h
      · cases h
        simp [ih _ hr]

/-- Pointwise description of the resolver over a dict: absent keys stay
absent, present values are resolved in place. -/
theorem resolveDict_get (env : String → Option String) :
    ∀ xs ys, resolveDict env xs = .ok ys → ∀ k,
      (assocGet xs k = none → assocGet ys k = none) ∧
      (∀ v, assocGet xs k = some v →
        ∃ w, resolve_env_vars env v = .ok w ∧ assocGet ys k = some w) := by
  intro xs
  induction xs with
  | nil =>
    intro ys h k
    simp only [resolveDict] at h
    cases h
    exact ⟨fun _ => rfl, fun v hv => by simp [assocGet] at hv⟩
  | cons p rest ih =>
    intro ys h k
    simp only [resolveDict, bind, Except.bind] at h
    cases hv : resolve_env_vars env p.2 <;> rw [hv] at h
    · cases h
    · cases hr : resolveDict env rest <;> rw [hr] at h
      · cases h
      · cases h
        by_cases hk : p.1 = k
        · subst hk
          constructor
          · intro hn
            simp [assocGet] at hn
          · intro v hv2
            simp [assocGet] at hv2
            subst hv2
            exact ⟨_, hv, by simp [assocGet]⟩
        · exact ⟨fun hn => by
              simp [assocGet, hk] at hn ⊢
              exact (ih _ hr k).1 hn,
            fun v hv2 => by
              simp [assocGet, hk] at hv2 ⊢
              exact (ih _ hr k).2 v hv2⟩

/-- A successful resolution of a dict value comes from a successful
resolution of its entries. -/
theorem resolve_dict_inv (env : String → Option String) (xs : List (String × YVal)) (y : YVal)
    (h : resolve_env_vars env (.dict xs) = .ok y) :
    ∃ ys, resolveDict env xs = .ok ys ∧ y = .dict ys := by
  simp only [resolve_env_vars] at h
  cases hr : resolveDict env xs <;> rw [hr] at h <;> simp [Except.map] at h
  exact ⟨_, rfl, h.symm⟩

/-- A successful resolution of a string value comes from a successful
substitution. -/
theorem resolve_s_inv (env : String → Option String) (x : String) (y : YVal)
    (h : resolve_env_vars env (.s x) = .ok y) :
    ∃ s, envSubst env x = .ok s ∧ y = .s s := by
  simp only [resolve_env_vars] at h
  cases hr : envSubst env x <;> rw [hr] at h <;> simp [Except.map] at h
  exact ⟨_, rfl, h.symm⟩

/-- parse_test_file in equational form when the body holds step
markers: the metadata, extended with _sql_steps and _filepath, is
passed through the variable resolver and the file path is re-set. -/
theorem parse_eq_steps (yl : String → Except String YVal) (env : String → Option String)
    (fp raw fm body : String) (m0 : List (String × YVal))
    (hfm : frontmatterMatch (stripBOM raw) = some (fm, body))
    (hyl : yl fm = .ok (.dict m0))
    (hps : stepPairs body ≠ []) :
    parse_test_file yl env fp raw =
      match resolve_env_vars env (.dict (assocSet
          (assocSet m0 "_sql_steps" (.dict (stepFold (stepPairs body) [])))
          "_filepath" (.s fp))) with
      | .error e => .error e
      | .ok m3 => pyDictSet m3 "_filepath" (.s fp) := by
  have hie : (stepPairs body).isEmpty = false := by
    cases hsp : stepPairs body with
    | nil => exact absurd hsp hps
    | cons a l => simp
  simp only [parse_test_file, hfm, hyl, hie, Bool.false_eq_true, if_false, pyDictSet,
    stepFold]

/-- parse_test_file in equational form when the body holds no step
markers: the whole trimmed body is stored under _sql. -/
theorem parse_eq_single (yl : String → Except String YVal) (env : String → Option String)
    (fp raw fm body : String) (m0 : List (String × YVal))
    (hfm : frontmatterMatch (stripBOM raw) = some (fm, body))
    (hyl : yl fm = .ok (.dict m0))
    (hps : stepPairs body = []) :
    parse_test_file yl env fp raw =
      match resolve_env_vars env (.dict (assocSet
          (assocSet m0 "_sql" (.s (pyStrip body)))
          "_filepath" (.s fp))) with
      | .error e => .error e
      | .ok m3 => pyDictSet m3 "_filepath" (.s fp) := by
  simp only [parse_test_file, hfm, hyl, hps, List.isEmpty_nil, if_true, pyDictSet]

/-- C8: when the body contains step-marker lines, the parsed definition
maps _sql_steps to an ordered mapping whose keys are the marker names
in first-occurrence order and whose value for each name is the trimmed
SQL text of the last marker with that name (later duplicates silently
replace earlier ones), each passed through the environment-variable
resolver; when the body contains no markers, the definition stores the
single trimmed (and resolved) SQL statement under _sql. -/
theorem parse_steps_mapping (yl : String → Except String YVal) (env : String → Option String)
    (fp raw fm body : String) (m0 d : List (String × YVal))
    (hfm : frontmatterMatch (stripBOM raw) = some (fm, body))
    (hyl : yl fm = .ok (.dict m0))
    (hok : parse_test_file yl env fp raw = .ok (.dict d)) :
    ((stepPairs body ≠ []) →
      ∃ sd, assocGet d "_sql_steps" = some (.dict sd) ∧
        sd.map Prod.fst = dedupKeepFirst ((stepPairs body).map Prod.fst) ∧
        (∀ k p, (stepPairs body).reverse.find? (fun q => q.1 == k) = some p →
          ∃ s, envSubst env p.2 = .ok s ∧ assocGet sd k = some (.s s))) ∧
    ((stepPairs body = []) →
      ∃ s, envSubst env (pyStrip body) = .ok s ∧ assocGet d "_sql" = some (.s s)) := by
  constructor
  · intro hps
    rw [parse_eq_steps yl env fp raw fm body m0 hfm hyl hps] at hok
    set big := assocSet (assocSet m0 "_sql_steps" (.dict (stepFold (stepPairs body) [])))
      "_filepath" (.s fp) with hbig
    cases hres : resolve_env_vars env (.dict big) <;> rw [hres] at hok
    · cases hok
    · obtain ⟨ys, hys, rfl⟩ := resolve_dict_inv env big _ hres
      simp only [pyDictSet] at hok
      cases hok
      -- d = assocSet ys "_filepath" (.s fp)
      have hget1 : assocGet big "_sql_steps" = some (.dict (stepFold (stepPairs body) [])) := by
        rw [hbig, assocGet_set_other _ _ _ _ (by decide), assocGet_set_same]
      obtain ⟨w, hw, hwy⟩ := (resolveDict_get env big ys hys "_sql_steps").2 _ hget1
      obtain ⟨sd, hsd, rfl⟩ := resolve_dict_inv env _ w hw
      refine ⟨sd, ?_, ?_, ?_⟩
      · rw [assocGet_set_other _ _ _ _ (by decide)]
        exact hwy
      · rw [resolveDict_keys env _ _ hsd, stepFold_keys]
        simp
      · intro k p hfind
        have hsf : assocGet (stepFold (stepPairs body) []) k = some (.s p.2) := by
          rw [stepFold_get, hfind]
          simp [Option.orElse]
        obtain ⟨w2, hw2, hw2y⟩ := (resolveDict_get env _ sd hsd k).2 _ hsf
        obtain ⟨s, hs, rfl⟩ := resolve_s_inv env _ _ hw2
        exact ⟨s, hs, hw2y⟩
  · intro hps
    rw [parse_eq_single yl env fp raw fm body m0 hfm hyl hps] at hok
    set big := assocSet (assocSet m0 "_sql" (.s (pyStrip body))) "_filepath" (.s fp) with hbig
    cases hres : resolve_env_vars env (.dict big) <;> rw [hres] at hok
    · cases hok
    · obtain ⟨ys, hys, rfl⟩ := resolve_dict_inv env big _ hres
      simp only [pyDictSet] at hok
      cases hok
      have hget1 : assocGet big "_sql" = some (.s (pyStrip body)) := by
        rw [hbig, assocGet_set_other _ _ _ _ (by decide), assocGet_set_same]
      obtain ⟨w, hw, hwy⟩ := (resolveDict_get env big ys hys "_sql").2 _ hget1
      obtain ⟨s, hs, rfl⟩ := resolve_s_inv env _ _ hw
      refine ⟨s, hs, ?_⟩
      rw [assocGet_set_other _ _ _ _ (by decide)]
      exact hwy

/-- C9: parsing fails with the missing-frontmatter error exactly when
the frontmatter pattern does not match the file text (no metadata block
delimited by the marker lines), and fails when the delimited block does
not load as a mapping — a loader error propagates, and a block loading
as any non-dict value fails at the item assignment that stores the SQL
body (a TypeError, which the specification taxonomy calls
MalformedMetadata). -/
theorem parse_frontmatter_errors (yl : String → Except String YVal)
    (env : String → Option String) (fp raw : String) :
    (frontmatterMatch (stripBOM raw) = none →
      parse_test_file yl env fp raw = .error ("No YAML frontmatter found in " ++ fp)) ∧
    (∀ fm body, frontmatterMatch (stripBOM raw) = some (fm, body) →
      (∀ e, yl fm = .error e → parse_test_file yl env fp raw = .error e) ∧
      (∀ v, yl fm = .ok v → (∀ xs, v ≠ .dict xs) →
        parse_test_file yl env fp raw
          = .error "TypeError: object does not support item assignment")) := by
  refine ⟨fun hfm => ?_, fun fm body hfm => ⟨fun e hyl => ?_, fun v hyl hnd => ?_⟩⟩
  · simp only [parse_test_file, hfm]
  · simp only [parse_test_file, hfm, hyl]
  · have hset : ∀ k w, pyDictSet v k w = .error "TypeError: object does not support item assignment" := by
      intro k w
      cases v <;> simp [pyDictSet]
      exact absurd rfl (hnd _)
    simp only [parse_test_file, hfm, hyl]
    cases (stepPairs body).isEmpty <;> simp [hset]

/-! ## C10 — environment resolution reaches the SQL body -/

/-- Assigning a fresh key appends the binding. -/
theorem assocSet_append_of_not_mem {α : Type} (d : List (String × α)) (k : String) (v : α)
    (h : assocGet d k = none) : assocSet d k v = d ++ [(k, v)] := by
  induction d with
  | nil => simp [assocSet]
  | cons p rest ih =>
    by_cases hp : p.1 = k
    · simp [assocGet, hp] at h
    · simp [assocGet, hp] at h
      simp [assocSet, hp, ih h]

/-- The resolver processes appended entry lists left to right. -/
theorem resolveDict_append (env : String → Option String) :
    ∀ xs ys, resolveDict env (xs ++ ys) =
      match resolveDict env xs with
      | .error e => .error e
      | .ok xs2 =>
        match resolveDict env ys with
        | .error e => .error e
        | .ok ys2 => .ok (xs2 ++ ys2) := by
  intro xs ys
  induction xs with
  | nil =>
    simp only [List.nil_append, resolveDict]
    cases resolveDict env ys <;> simp
  | cons p rest ih =>
    simp only [List.cons_append, resolveDict, bind, Except.bind, List.append_eq]
    rw [ih]
    cases resolve_env_vars env p.2 <;> simp
    cases resolveDict env rest <;> simp
    cases resolveDict env ys <;> simp

/-- A dict whose values all resolve successfully resolves
successfully. -/
theorem resolveDict_all_ok (env : String → Option String) :
    ∀ xs, (∀ p ∈ xs, ∃ w, resolve_env_vars env p.2 = .ok w) →
      ∃ ys, resolveDict env xs = .ok ys := by
  intro xs
  induction xs with
  | nil => intro _; exact ⟨[], rfl⟩
  | cons p rest ih =>
    intro h
    obtain ⟨w, hw⟩ := h p (by simp)
    obtain ⟨ys, hys⟩ := ih (fun q hq => h q (by simp [hq]))
    exact ⟨(p.1, w) :: ys, by simp only [resolveDict, bind, Except.bind, hw, hys]⟩

/-- C10: the parser stores the SQL body into the metadata mapping
before applying the variable resolver, so resolution reaches the SQL
text: when the single-statement body's substitution fails (an unset
variable with no default), parsing of the file fails with that
missing-variable error; when it succeeds, the parsed definition stores
the substituted SQL text under _sql. -/
theorem parse_resolves_sql_env (yl : String → Except String YVal)
    (env : String → Option String) (fp raw fm body : String) (m0 : List (String × YVal))
    (hfm : frontmatterMatch (stripBOM raw) = some (fm, body))
    (hyl : yl fm = .ok (.dict m0))
    (hps : stepPairs body = [])
    (hm0 : ∀ p ∈ m0, ∃ w, resolve_env_vars env p.2 = .ok w)
    (hk1 : assocGet m0 "_sql" = none)
    (hk2 : assocGet m0 "_filepath" = none)
    (hfp : ∃ w, envSubst env fp = .ok w) :
    (∀ e, envSubst env (pyStrip body) = .error e →
      parse_test_file yl env fp raw = .error e) ∧
    (∀ s, envSubst env (pyStrip body) = .ok s →
      ∃ d2, parse_test_file yl env fp raw = .ok (.dict d2) ∧
        assocGet d2 "_sql" = some (.s s)) := by
  have hget2 : assocGet (m0 ++ [("_sql", YVal.s (pyStrip body))]) "_filepath" = none := by
    rw [assocGet_append_right hk2]
    simp [assocGet]
  have hbig : assocSet (assocSet m0 "_sql" (.s (pyStrip body))) "_filepath" (.s fp)
      = (m0 ++ [("_sql", .s (pyStrip body))]) ++ [("_filepath", .s fp)] := by
    rw [assocSet_append_of_not_mem m0 _ _ hk1, assocSet_append_of_not_mem _ _ _ hget2]
  obtain ⟨m0r, hm0r⟩ := resolveDict_all_ok env m0 hm0
  obtain ⟨fpw, hfpw⟩ := hfp
  have hkeysr : m0r.map Prod.fst = m0.map Prod.fst := resolveDict_keys env m0 m0r hm0r
  constructor
  · intro e he
    rw [parse_eq_single yl env fp raw fm body m0 hfm hyl hps, hbig]
    have hres : resolve_env_vars env
        (.dict ((m0 ++ [("_sql", YVal.s (pyStrip body))]) ++ [("_filepath", YVal.s fp)]))
        = .error e := by
      simp only [resolve_env_vars]
      rw [resolveDict_append, resolveDict_append, hm0r]
      simp only [resolveDict, resolve_env_vars, bind, Except.bind, he, Except.map]
    rw [hres]
  · intro s hs
    rw [parse_eq_single yl env fp raw fm body m0 hfm hyl hps, hbig]
    have hres : resolve_env_vars env
        (.dict ((m0 ++ [("_sql", YVal.s (pyStrip body))]) ++ [("_filepath", YVal.s fp)]))
        = .ok (.dict ((m0r ++ [("_sql", YVal.s s)]) ++ [("_filepath", YVal.s fpw)])) := by
      simp only [resolve_env_vars]
      rw [resolveDict_append, resolveDict_append, hm0r]
      simp only [resolveDict, resolve_env_vars, bind, Except.bind, hs, hfpw, Except.map]
    rw [hres]
    refine ⟨assocSet ((m0r ++ [("_sql", YVal.s s)]) ++ [("_filepath", YVal.s fpw)])
      "_filepath" (YVal.s fp), by simp [pyDictSet], ?_⟩
    rw [assocGet_set_other _ "_filepath" "_sql" _ (by decide)]
    have hnone : assocGet m0r "_sql" = none := by
      rw [assocGet_eq_none_iff, hkeysr, ← assocGet_eq_none_iff]
      exact hk1
    have hleft : assocGet (m0r ++ [("_sql", YVal.s s)]) "_sql" = some (YVal.s s) := by
      rw [assocGet_append_right hnone]
      simp [assocGet]
    rw [assocGet_append_left hleft]

/-- An environment with no variables set. -/
def envNone : String → Option String := fun _ => none

/-- A YAML loader oracle returning a fixed one-entry mapping. -/
def ylT : String → Except String YVal := fun _ => .ok (.dict [("test_name", .s "t")])

/-- A test file whose body holds three step markers, the step name a
repeating. -/
def rawC8 : String :=
  "---\nm\n---\n--- step: a\nSQL A\n--- step: b\nSQL B\n--- step: a\nSQL A2"

/-- The body of rawC8. -/
def bodyC8 : String := "--- step: a\nSQL A\n--- step: b\nSQL B\n--- step: a\nSQL A2"

/-- The parsed definition of rawC8. -/
def dC8 : List (String × YVal) :=
  [("test_name", .s "t"),
   ("_sql_steps", .dict [("a", .s "SQL A2"), ("b", .s "SQL B")]),
   ("_filepath", .s "f.sql")]

/-- Witness for C8: three markers with a duplicate name yield keys
[a, b] in first-occurrence order, the value of a being the later
body. -/
theorem parse_steps_mapping_witness :
    ∃ sd, assocGet dC8 "_sql_steps" = some (.dict sd) ∧
      sd.map Prod.fst = dedupKeepFirst ((stepPairs bodyC8).map Prod.fst) ∧
      ∃ s, envSubst envNone "SQL A2" = .ok s ∧ assocGet sd "a" = some (.s s) := by
  have h := (parse_steps_mapping ylT envNone "f.sql" rawC8 "m" bodyC8
    [("test_name", .s "t")] dC8 rfl rfl rfl).1 (by decide)
  obtain ⟨sd, h1, h2, h3⟩ := h
  exact ⟨sd, h1, h2, h3 "a" ("a", "SQL A2") rfl⟩

/-- Witness for C9: a file without a metadata block fails with the
missing-frontmatter error; a block loading as a scalar fails at the
item assignment. -/
theorem parse_frontmatter_errors_witness :
    parse_test_file ylT envNone "g.sql" "SELECT 1"
      = .error "No YAML frontmatter found in g.sql" ∧
    parse_test_file (fun _ => .ok (.s "hello")) envNone "g.sql" "---\nhello\n---\nSELECT 1"
      = .error "TypeError: object does not support item assignment" := by
  have h1 := (parse_frontmatter_errors ylT envNone "g.sql" "SELECT 1").1 rfl
  have h2 := ((parse_frontmatter_errors (fun _ => .ok (.s "hello")) envNone "g.sql"
    "---\nhello\n---\nSELECT 1").2 "hello" "SELECT 1" rfl).2 (.s "hello") rfl
    (fun _ hx => YVal.noConfusion hx)
  exact ⟨h1, h2⟩

/-- Witness for C10: an unset variable without default inside the SQL
body makes parsing fail with the missing-variable error; with a default
the substituted SQL is stored under _sql. -/
theorem parse_resolves_sql_env_witness :
    parse_test_file (fun _ => .ok (.dict [("t", YVal.i 1)])) envNone "h.sql"
        "---\nt: 1\n---\nSELECT $\x7bNAME\x7d"
      = .error (missingVarMsg "NAME") ∧
    (∃ d2, parse_test_file (fun _ => .ok (.dict [("t", YVal.i 1)])) envNone "h.sql"
        "---\nt: 1\n---\nSELECT $\x7bNAME:42\x7d"
      = .ok (.dict d2) ∧ assocGet d2 "_sql" = some (.s "SELECT 42")) := by
  have hm0 : ∀ p ∈ [("t", YVal.i 1)], ∃ w, resolve_env_vars envNone p.2 = .ok w := by
    intro p hp
    simp at hp
    subst hp
    exact ⟨.i 1, rfl⟩
  have h1 := (parse_resolves_sql_env (fun _ => .ok (.dict [("t", YVal.i 1)])) envNone
    "h.sql" "---\nt: 1\n---\nSELECT $\x7bNAME\x7d" "t: 1" "SELECT $\x7bNAME\x7d"
    [("t", YVal.i 1)] rfl rfl rfl hm0 rfl rfl ⟨"h.sql", rfl⟩).1 (missingVarMsg "NAME") rfl
  have h2 := (parse_resolves_sql_env (fun _ => .ok (.dict [("t", YVal.i 1)])) envNone
    "h.sql" "---\nt: 1\n---\nSELECT $\x7bNAME:42\x7d" "t: 1" "SELECT $\x7bNAME:42\x7d"
    [("t", YVal.i 1)] rfl rfl rfl hm0 rfl rfl ⟨"h.sql", rfl⟩).2 "SELECT 42" rfl
  exact ⟨h1, h2⟩

end Shrike
